import Mathlib

/-
  Shallow embedding of the delivery-logistics backend
  (yodsaphonh/api-test-delivery, src/server.js and the unnamed snapshot
  files src/unnamed/part_000 .. part_004, which are successive complete
  versions of the same server.js).

  Modelling conventions:
  * Firestore collections are association lists from the document id to
    the document record, kept in the Firestore key order (document ids
    are the decimal string of the numeric entity id, and Firestore
    orders documents by the lexicographic order of their id strings).
  * Firestore transactions are serialisable; a transaction body is
    embedded as a pure function on the whole store, and concurrency is
    modelled by running the transactions in either serial order.
  * JavaScript request fields that may be absent or null are Option
    values; the JS falsy test on a numeric id treats 0 as absent and on
    a string treats the empty string as absent, and the embedding makes
    those coercions explicit.
  * serverTimestamp audit fields (createdAt, updatedAt) are opaque
    server values that no claim depends on; they are not modelled.
  * Handlers return an Except carrying the HTTP status code and message
    the route maps the outcome to, paired with the store after the
    call.  A handler that throws before writing returns the store
    unchanged, which is exactly what the source does.
-/

namespace DeliveryApi

/-- A Firestore collection keyed by numeric document id (the document id
string is the decimal representation of the number). -/
abbrev Col (α : Type) := List (Nat × α)

/-- Firestore orders document ids as strings; numeric ids are stored as
their decimal strings, so the collection order is the lexicographic
order of the decimal representations. -/
def keyLt (a b : Nat) : Bool := decide (Nat.repr a < Nat.repr b)

/-- Read a document by id: the first entry with the key. -/
def colGet? : Col α → Nat → Option α
  | [], _ => none
  | e :: rest, k => if e.1 = k then some e.2 else colGet? rest k

/-- Write (set) a document: replace the entry with the key, or insert a
new entry at its Firestore key position. -/
def colSet (c : Col α) (k : Nat) (v : α) : Col α :=
  match c with
  | [] => [(k, v)]
  | e :: rest =>
      if e.1 = k then (k, v) :: rest
      else if keyLt k e.1 then (k, v) :: e :: rest
      else e :: colSet rest k v

/-- Update a document in place (Firestore update on an existing id). -/
def colUpdate (c : Col α) (k : Nat) (f : α → α) : Col α :=
  c.map (fun e => if e.1 = k then (e.1, f e.2) else e)

/-- The _counters collection, keyed by the sequence name string. -/
abbrev CounterCol := List (String × Nat)

/-- Read a counter value; a missing record reads as absent. -/
def counterGet? : CounterCol → String → Option Nat
  | [], _ => none
  | e :: rest, s => if e.1 = s then some e.2 else counterGet? rest s

/-- Set a counter value (replace or insert). -/
def counterSet (c : CounterCol) (s : String) (v : Nat) : CounterCol :=
  match c with
  | [] => [(s, v)]
  | e :: rest =>
      if e.1 = s then (s, v) :: rest
      else e :: counterSet rest s v

/-- User document (collection "user"). -/
structure UserDoc where
  user_id : Nat
  name : String
  password : String
  phone : String
  picture : Option String
  role : Nat
deriving DecidableEq

/-- Address document (collection "user_address"). -/
structure AddressDoc where
  address_id : Nat
  user_id : Nat
  address : String
  lat : Option ℚ
  lng : Option ℚ
deriving DecidableEq

/-- Delivery document (collection "delivery"). -/
structure DeliveryDoc where
  delivery_id : Nat
  user_id_sender : Nat
  user_id_receiver : Nat
  phone_receiver : Option String
  address_id_sender : Nat
  address_id_receiver : Nat
  picture_status1 : Option String
  name_product : String
  picture_product : Option String
  detail_product : String
  amount : ℚ
  status : String
deriving DecidableEq

/-- Assignment document (collection "delivery_assignment"). -/
structure AssignmentDoc where
  assi_id : Nat
  delivery_id : Nat
  rider_id : Nat
  status : String
  picture_status2 : Option String
  picture_status3 : Option String
deriving DecidableEq

/-- Rider location document (collection "rider_location"), keyed by the
rider id.  Different handler versions write different field subsets
with merge semantics, so every field is optional except user_id. -/
structure RiderLocationDoc where
  rider_location_id : Option String
  user_id : String
  address_id : Option String
  lat : Option ℚ
  lng : Option ℚ
deriving DecidableEq

/-- The whole document store. -/
structure DB where
  users : Col UserDoc
  addresses : Col AddressDoc
  deliveries : Col DeliveryDoc
  assignments : Col AssignmentDoc
  riderLocs : Col RiderLocationDoc
  counters : CounterCol
deriving DecidableEq

/-- Status of a delivery as observed in the store. -/
def statusOf (db : DB) (id : Nat) : Option String :=
  (colGet? db.deliveries id).map (·.status)

/-- An error outcome: the HTTP status code the route maps the condition
to, and the message of the thrown or returned error. -/
structure Err where
  code : Nat
  msg : String
deriving DecidableEq

instance [DecidableEq ε] [DecidableEq α] : DecidableEq (Except ε α) :=
  fun a b =>
    match a, b with
    | .ok x, .ok y =>
        if h : x = y then .isTrue (by rw [h])
        else .isFalse (fun hh => h (Except.ok.inj hh))
    | .error x, .error y =>
        if h : x = y then .isTrue (by rw [h])
        else .isFalse (fun hh => h (Except.error.inj hh))
    | .ok _, .error _ => .isFalse (fun hh => Except.noConfusion hh)
    | .error _, .ok _ => .isFalse (fun hh => Except.noConfusion hh)

/- ------------------------------------------------------------------
   Auto-increment counter: async function nextId(sequence)
   (src/server.js lines 62-73, identical in every snapshot).
   The transaction reads the counter, treats a missing record as 0,
   writes current + 1 back and returns it.
   ------------------------------------------------------------------ -/

/-- nextId: one transactional read-modify-write on the named counter. -/
def nextId (db : DB) (seq : String) : Nat × DB :=
  let current := (counterGet? db.counters seq).getD 0
  let next := current + 1
  (next, { db with counters := counterSet db.counters seq next })

/-- Run a burst of allocator calls (the serialisation of any set of
concurrent callers), returning the list of (sequence name, value)
pairs in commit order. -/
def runAllocs (db : DB) : List String → List (String × Nat)
  | [] => []
  | s :: rest =>
      let r := nextId db s
      (s, r.1) :: runAllocs r.2 rest

/-- The values returned for one sequence name, in commit order. -/
def returnsFor (db : DB) (trace : List String) (s : String) : List Nat :=
  (runAllocs db trace).filterMap (fun e => if e.1 = s then some e.2 else none)

/-- Reading a counter after a set on the same name. -/
theorem counterGet?_counterSet_self (c : CounterCol) (s : String) (v : Nat) :
    counterGet? (counterSet c s v) s = some v := by
  induction c with
  | nil => simp [counterSet, counterGet?]
  | cons e rest ih =>
      by_cases h : e.1 = s
      · simp [counterSet, h, counterGet?]
      · simp [counterSet, h, counterGet?, ih]

/-- Reading a counter after a set on a different name. -/
theorem counterGet?_counterSet_ne (c : CounterCol) (s t : String) (v : Nat)
    (h : t ≠ s) : counterGet? (counterSet c s v) t = counterGet? c t := by
  induction c with
  | nil => simp [counterSet, counterGet?, Ne.symm h]
  | cons e rest ih =>
      by_cases he : e.1 = s
      · subst he
        simp [counterSet, counterGet?, Ne.symm h, h]
      · by_cases ht : e.1 = t
        · simp [counterSet, he, counterGet?, ht, h]
        · simp [counterSet, he, counterGet?, ht, ih]

/-- Current counter value with the missing-record-means-0 convention. -/
def counterVal (db : DB) (s : String) : Nat :=
  (counterGet? db.counters s).getD 0

/-- Unfolding returnsFor over the first call of the burst. -/
theorem returnsFor_cons (db : DB) (t : String) (rest : List String)
    (s : String) :
    returnsFor db (t :: rest) s =
      if t = s then (nextId db t).1 :: returnsFor (nextId db t).2 rest s
      else returnsFor (nextId db t).2 rest s := by
  by_cases h : t = s <;> simp [returnsFor, runAllocs, List.filterMap_cons, h]

/-- The counter moves to the returned value on the allocated name. -/
theorem counterVal_nextId_self (db : DB) (s : String) :
    counterVal (nextId db s).2 s = counterVal db s + 1 := by
  simp [nextId, counterVal, counterGet?_counterSet_self]

/-- The counter of any other name is untouched by an allocation. -/
theorem counterVal_nextId_ne (db : DB) (s t : String) (h : t ≠ s) :
    counterVal (nextId db s).2 t = counterVal db t := by
  simp [nextId, counterVal, counterGet?_counterSet_ne _ _ _ _ h]

/-- Every value the burst returns for a name is above the counter value
at the start of the burst. -/
theorem returnsFor_gt (trace : List String) :
    ∀ (db : DB) (s : String) (v : Nat), v ∈ returnsFor db trace s →
      counterVal db s < v := by
  induction trace with
  | nil => intro db s v hv; simp [returnsFor, runAllocs] at hv
  | cons t rest ih =>
      intro db s v hv
      rw [returnsFor_cons] at hv
      by_cases hts : t = s
      · subst hts
        rw [if_pos rfl] at hv
        rcases List.mem_cons.mp hv with rfl | hv
        · have : (nextId db t).1 = counterVal db t + 1 := by
            simp [nextId, counterVal]
          omega
        · have h1 := ih (nextId db t).2 t v hv
          have h2 := counterVal_nextId_self db t
          omega
      · rw [if_neg hts] at hv
        have h1 := ih (nextId db t).2 s v hv
        have h2 := counterVal_nextId_ne db t s (Ne.symm hts)
        omega

/-- Along any serialised burst the values returned for one sequence
name are strictly increasing in commit order. -/
theorem returnsFor_pairwise (trace : List String) :
    ∀ (db : DB) (s : String),
      List.Pairwise (· < ·) (returnsFor db trace s) := by
  induction trace with
  | nil => intro db s; simp [returnsFor, runAllocs]
  | cons t rest ih =>
      intro db s
      rw [returnsFor_cons]
      by_cases hts : t = s
      · subst hts
        rw [if_pos rfl]
        refine List.pairwise_cons.mpr ⟨?_, ih _ _⟩
        intro v hv
        have h1 := returnsFor_gt rest (nextId db t).2 t v hv
        have h2 := counterVal_nextId_self db t
        have h3 : (nextId db t).1 = counterVal db t + 1 := by
          simp [nextId, counterVal]
        omega
      · rw [if_neg hts]
        exact ih _ _

/- ------------------------------------------------------------------
   Generic collection lemmas.
   ------------------------------------------------------------------ -/

/-- Reading back a freshly set document. -/
theorem colGet?_colSet_self (c : Col α) (k : Nat) (v : α) :
    colGet? (colSet c k v) k = some v := by
  induction c with
  | nil => simp [colSet, colGet?]
  | cons e rest ih =>
      by_cases h : e.1 = k
      · simp [colSet, h, colGet?]
      · by_cases h2 : keyLt k e.1
        · simp [colSet, h, h2, colGet?]
        · simp [colSet, h, h2, colGet?, ih]

/-- Setting one document does not change any other document. -/
theorem colGet?_colSet_ne (c : Col α) (k k' : Nat) (v : α) (h : k' ≠ k) :
    colGet? (colSet c k v) k' = colGet? c k' := by
  induction c with
  | nil => simp [colSet, colGet?, Ne.symm h]
  | cons e rest ih =>
      by_cases he : e.1 = k
      · subst he
        simp [colSet, colGet?, Ne.symm h]
      · by_cases h2 : keyLt k e.1
        · simp [colSet, he, h2, colGet?, Ne.symm h]
        · simp [colSet, he, h2, colGet?, ih]

/-- Unfolding an in-place update over the first entry. -/
theorem colUpdate_cons (e : Nat × α) (rest : Col α) (k : Nat) (f : α → α) :
    colUpdate (e :: rest) k f =
      (if e.1 = k then (e.1, f e.2) else e) :: colUpdate rest k f := rfl

/-- Reading the updated document after an in-place update. -/
theorem colGet?_colUpdate_self (c : Col α) (k : Nat) (f : α → α) :
    colGet? (colUpdate c k f) k = (colGet? c k).map f := by
  induction c with
  | nil => simp [colUpdate, colGet?]
  | cons e rest ih =>
      rw [colUpdate_cons]
      by_cases h : e.1 = k
      · simp [h, colGet?]
      · simp [h, colGet?, ih]

/-- An in-place update does not change any other document. -/
theorem colGet?_colUpdate_ne (c : Col α) (k k' : Nat) (f : α → α)
    (h : k' ≠ k) : colGet? (colUpdate c k f) k' = colGet? c k' := by
  induction c with
  | nil => simp [colUpdate, colGet?]
  | cons e rest ih =>
      rw [colUpdate_cons]
      by_cases he : e.1 = k
      · subst he
        simp [colGet?, Ne.symm h, ih]
      · by_cases ht : e.1 = k'
        · simp [he, colGet?, ht, h]
        · simp [he, colGet?, ht, ih]

/-- Membership after a set: the new entry or an old one. -/
theorem mem_colSet (c : Col α) (k : Nat) (v : α) (e : Nat × α)
    (h : e ∈ colSet c k v) : e = (k, v) ∨ e ∈ c := by
  induction c with
  | nil => simpa [colSet] using h
  | cons e' rest ih =>
      by_cases h1 : e'.1 = k
      · rcases (by simpa [colSet, h1] using h) with h2 | h2
        · exact Or.inl h2
        · exact Or.inr (List.mem_cons_of_mem _ h2)
      · by_cases h2 : keyLt k e'.1
        · rcases (by simpa [colSet, h1, h2] using h) with h3 | h3 | h3
          · exact Or.inl h3
          · exact Or.inr (by simp [h3])
          · exact Or.inr (List.mem_cons_of_mem _ h3)
        · rcases (by simpa [colSet, h1, h2] using h) with h3 | h3
          · exact Or.inr (by simp [h3])
          · rcases ih h3 with h4 | h4
            · exact Or.inl h4
            · exact Or.inr (List.mem_cons_of_mem _ h4)

/-- Membership after an in-place update: every entry comes from an old
entry, updated when its key matches. -/
theorem mem_colUpdate (c : Col α) (k : Nat) (f : α → α) (e : Nat × α)
    (h : e ∈ colUpdate c k f) :
    ∃ e' ∈ c, e = if e'.1 = k then (e'.1, f e'.2) else e' := by
  rcases List.mem_map.mp h with ⟨e', he', rfl⟩
  exact ⟨e', he', rfl⟩

/-- The keys of a collection are unchanged by an in-place update. -/
theorem colUpdate_keys (c : Col α) (k : Nat) (f : α → α) :
    (colUpdate c k f).map (·.1) = c.map (·.1) := by
  induction c with
  | nil => simp [colUpdate]
  | cons e rest ih =>
      by_cases h : e.1 = k <;>
        simpa [colUpdate, h] using ih

/-- A key no entry carries reads as absent. -/
theorem colGet?_eq_none (c : Col α) (k : Nat)
    (h : ∀ e ∈ c, e.1 ≠ k) : colGet? c k = none := by
  induction c with
  | nil => simp [colGet?]
  | cons e rest ih =>
      simp only [colGet?, if_neg (h e (List.mem_cons_self e rest))]
      exact ih (fun e' he' => h e' (List.mem_cons_of_mem _ he'))

/- ------------------------------------------------------------------
   JavaScript value coercions made explicit.
   ------------------------------------------------------------------ -/

/-- The JS pattern x ? String(x) : null on an optional string: the
empty string is falsy and collapses to null. -/
def strOpt : Option String → Option String
  | some s => if s = "" then none else some s
  | none => none

/-- The JS pattern x ? String(x) : d on an optional string. -/
def strOr (o : Option String) (d : String) : String :=
  match o with
  | some s => if s = "" then d else s
  | none => d

/-- The JS pattern a || b || null on two optional strings. -/
def jsOrStr (a b : Option String) : Option String :=
  match strOpt a with
  | some s => some s
  | none => strOpt b

/-- The JS pattern Number(amount || 1): a missing or zero amount
becomes 1. -/
def jsAmount : Option ℚ → ℚ
  | none => 1
  | some q => if q = 0 then 1 else q

/- ------------------------------------------------------------------
   User registration (src/server.js lines 76-123 and 180-188,
   identical in part_004).  assertPhoneNotDuplicate throws a code-409
   error whose payload is the whole stored document of the first user
   matching the phone; the route spreads that payload into the error
   response body.
   ------------------------------------------------------------------ -/

/-- Registration error: HTTP code, message, and the payload the route
spreads into the response body (the full stored user document,
password included, keyed by its document id). -/
structure RegisterErr where
  code : Nat
  msg : String
  payload : Option (Nat × UserDoc)
deriving DecidableEq

/-- The first user whose phone field equals the given phone, in the
collection order the limit-1 query uses. -/
def findUserByPhone (c : Col UserDoc) (phone : String) :
    Option (Nat × UserDoc) :=
  c.find? (fun e => e.2.phone == phone)

/-- Request body of POST /register/user (role is fixed to 0 by the
route; createUser itself accepts 0 or 1). -/
structure UserReq where
  name : String
  password : String
  phone : String
  picture : Option String
  role : Nat
deriving DecidableEq

/-- createUser: validates, rejects duplicate phones with the existing
document as payload, then allocates user_seq and persists. -/
def createUser (db : DB) (r : UserReq) :
    Except RegisterErr (Nat × UserDoc) × DB :=
  if r.name = "" ∨ r.password = "" ∨ r.phone = "" then
    (.error ⟨400, "name, password, phone are required", none⟩, db)
  else if ¬(r.role = 0 ∨ r.role = 1) then
    (.error ⟨400, "role must be 0 or 1", none⟩, db)
  else
    match findUserByPhone db.users r.phone with
    | some e => (.error ⟨409, "phone already exists", some e⟩, db)
    | none =>
        let p := nextId db "user_seq"
        let u : UserDoc :=
          { user_id := p.1, name := r.name, password := r.password,
            phone := r.phone, picture := strOpt r.picture, role := r.role }
        (.ok (p.1, u), { p.2 with users := colSet p.2.users p.1 u })

/- ------------------------------------------------------------------
   Delivery creation (src/server.js lines 384-447, identical in
   part_004 lines 384-446).
   ------------------------------------------------------------------ -/

/-- Request body of POST /delivery/create. -/
structure DeliveryReq where
  user_id_sender : Nat
  user_id_receiver : Nat
  phone_receiver : Option String
  address_id_sender : Nat
  address_id_receiver : Nat
  picture_status1 : Option String
  name_product : Option String
  detail_product : Option String
  picture_product : Option String
  amount : Option ℚ
  status : Option String
deriving DecidableEq

/-- The document createDelivery persists once all checks pass. -/
def newDeliveryDoc (db : DB) (r : DeliveryReq) : DeliveryDoc :=
  { delivery_id := counterVal db "delivery_seq" + 1,
    user_id_sender := r.user_id_sender,
    user_id_receiver := r.user_id_receiver,
    phone_receiver := strOpt r.phone_receiver,
    address_id_sender := r.address_id_sender,
    address_id_receiver := r.address_id_receiver,
    picture_status1 := strOpt r.picture_status1,
    name_product := strOr r.name_product "",
    picture_product := strOpt r.picture_product,
    detail_product := strOr r.detail_product "",
    amount := jsAmount r.amount,
    status := strOr r.status "waiting" }

/-- createDelivery: reference checks, then allocate delivery_seq and
persist.  The stored status is the caller-supplied status string when
it is truthy, and "waiting" otherwise. -/
def createDelivery (db : DB) (r : DeliveryReq) :
    Except Err DeliveryDoc × DB :=
  if r.user_id_sender = 0 ∨ r.user_id_receiver = 0 ∨
      r.address_id_sender = 0 ∨ r.address_id_receiver = 0 then
    (.error ⟨400,
      "user_id_sender, user_id_receiver, address_id_sender, address_id_receiver are required"⟩,
      db)
  else if (colGet? db.users r.user_id_sender).isNone then
    (.error ⟨404, "sender not found"⟩, db)
  else if (colGet? db.users r.user_id_receiver).isNone then
    (.error ⟨404, "receiver not found"⟩, db)
  else if (colGet? db.addresses r.address_id_sender).isNone ∨
      (colGet? db.addresses r.address_id_receiver).isNone then
    (.error ⟨404, "address sender or receiver not found"⟩, db)
  else
    let p := nextId db "delivery_seq"
    let d := newDeliveryDoc db r
    (.ok d, { p.2 with deliveries := colSet p.2.deliveries p.1 d })

/-- Every createDelivery call either rejects with the store untouched
or persists exactly the new document under the freshly allocated id. -/
theorem createDelivery_total (db : DB) (r : DeliveryReq) :
    (∃ e, createDelivery db r = (.error e, db)) ∨
    createDelivery db r =
      (.ok (newDeliveryDoc db r),
       { (nextId db "delivery_seq").2 with deliveries := (colSet db.deliveries
           (counterVal db "delivery_seq" + 1) (newDeliveryDoc db r)) }) := by
  unfold createDelivery
  split_ifs with h1 h2 h3 h4
  · exact Or.inl ⟨_, rfl⟩
  · exact Or.inl ⟨_, rfl⟩
  · exact Or.inl ⟨_, rfl⟩
  · exact Or.inl ⟨_, rfl⟩
  · exact Or.inr rfl

/- ------------------------------------------------------------------
   Accept (src/unnamed/part_004 lines 600-675): the transactional
   variant of POST /deliveries/accept.  The assi_seq allocation
   happens before the transaction; the transaction re-reads the
   delivery, requires status waiting, creates the assignment, moves
   the delivery to accept and merge-upserts the rider location, and
   those three writes commit atomically or not at all.  The route
   maps the thrown messages (not found / required / progress) to 400.
   ------------------------------------------------------------------ -/

/-- Request body of POST /deliveries/accept in part_004. -/
structure AcceptReq where
  delivery_id : Nat
  rider_id : Nat
  rider_lat : Option ℚ
  rider_lng : Option ℚ
deriving DecidableEq

/-- The merge-upsert both accept and update-status-accept perform on
rider_location: it writes rider_location_id, user_id, lat and lng and
keeps any other stored field (merge semantics). -/
def riderLocMerge (old : Option RiderLocationDoc) (rid : Nat)
    (lat lng : ℚ) : RiderLocationDoc :=
  { rider_location_id := some (Nat.repr rid),
    user_id := Nat.repr rid,
    address_id := match old with
      | some o => o.address_id
      | none => none,
    lat := some lat,
    lng := some lng }

/-- POST /deliveries/accept, part_004 transactional variant. -/
def acceptDelivery (db : DB) (r : AcceptReq) :
    Except Err AssignmentDoc × DB :=
  if r.delivery_id = 0 ∨ r.rider_id = 0 then
    (.error ⟨400, "delivery_id, rider_id are required"⟩, db)
  else if r.rider_lat.isNone ∨ r.rider_lng.isNone then
    (.error ⟨400, "rider_lat, rider_lng are required on accept"⟩, db)
  else
    let p := nextId db "assi_seq"
    let db1 := p.2
    match colGet? db1.deliveries r.delivery_id with
    | none => (.error ⟨400, "delivery not found"⟩, db1)
    | some d =>
        if d.status ≠ "waiting" then
          (.error ⟨400, "Delivery already accepted or in progress"⟩, db1)
        else
          let a : AssignmentDoc :=
            { assi_id := p.1, delivery_id := r.delivery_id,
              rider_id := r.rider_id, status := "accept",
              picture_status2 := none, picture_status3 := none }
          (.ok a,
            { db1 with
              assignments := colSet db1.assignments p.1 a,
              deliveries := colUpdate db1.deliveries r.delivery_id
                (fun dd => { dd with status := "accept" }),
              riderLocs := colSet db1.riderLocs r.rider_id
                (riderLocMerge (colGet? db1.riderLocs r.rider_id)
                  r.rider_id (r.rider_lat.getD 0) (r.rider_lng.getD 0)) })

/-- The assignment document a successful accept creates. -/
def newAcceptAssign (db : DB) (r : AcceptReq) : AssignmentDoc :=
  { assi_id := counterVal db "assi_seq" + 1, delivery_id := r.delivery_id,
    rider_id := r.rider_id, status := "accept",
    picture_status2 := none, picture_status3 := none }

/-- The store a successful accept commits: the new assignment, the
delivery moved to accept, the merged rider location, and the already
bumped assi_seq counter. -/
def acceptSuccess (db : DB) (r : AcceptReq) : DB :=
  { users := db.users,
    addresses := db.addresses,
    deliveries := (colUpdate db.deliveries r.delivery_id
      (fun dd => { dd with status := "accept" })),
    assignments := (colSet db.assignments (counterVal db "assi_seq" + 1)
      (newAcceptAssign db r)),
    riderLocs := (colSet db.riderLocs r.rider_id
      (riderLocMerge (colGet? db.riderLocs r.rider_id) r.rider_id
        (r.rider_lat.getD 0) (r.rider_lng.getD 0))),
    counters := (counterSet db.counters "assi_seq"
      (counterVal db "assi_seq" + 1)) }

/-- Complete case analysis of the accept handler: a validation
rejection leaves the store untouched; a transaction abort leaves
everything but the pre-allocated counter untouched; a commit produces
exactly the success store. -/
theorem acceptDelivery_total (db : DB) (r : AcceptReq) :
    ((r.delivery_id = 0 ∨ r.rider_id = 0) ∧
      acceptDelivery db r =
        (.error ⟨400, "delivery_id, rider_id are required"⟩, db)) ∨
    ((r.rider_lat = none ∨ r.rider_lng = none) ∧
      acceptDelivery db r =
        (.error ⟨400, "rider_lat, rider_lng are required on accept"⟩, db)) ∨
    (colGet? db.deliveries r.delivery_id = none ∧
      acceptDelivery db r =
        (.error ⟨400, "delivery not found"⟩, (nextId db "assi_seq").2)) ∨
    (∃ d, colGet? db.deliveries r.delivery_id = some d ∧
      d.status ≠ "waiting" ∧
      acceptDelivery db r =
        (.error ⟨400, "Delivery already accepted or in progress"⟩,
         (nextId db "assi_seq").2)) ∨
    (∃ d, colGet? db.deliveries r.delivery_id = some d ∧
      d.status = "waiting" ∧
      acceptDelivery db r = (.ok (newAcceptAssign db r), acceptSuccess db r)) := by
  unfold acceptDelivery
  split_ifs with h1 h2
  · exact Or.inl ⟨h1, rfl⟩
  · refine Or.inr (Or.inl ⟨?_, rfl⟩)
    simpa [Option.isNone_iff_eq_none] using h2
  · rcases h : colGet? db.deliveries r.delivery_id with _ | d
    · refine Or.inr (Or.inr (Or.inl ⟨rfl, ?_⟩))
      have hs : colGet? (nextId db "assi_seq").2.deliveries r.delivery_id =
          none := h
      simp only [hs]
    · by_cases hw : d.status = "waiting"
      · refine Or.inr (Or.inr (Or.inr (Or.inr ⟨d, rfl, hw, ?_⟩)))
        have hs : colGet? (nextId db "assi_seq").2.deliveries r.delivery_id =
            some d := h
        simp only [hs]
        rw [if_neg (by simp [hw])]
        rfl
      · refine Or.inr (Or.inr (Or.inr (Or.inl ⟨d, rfl, hw, ?_⟩)))
        have hs : colGet? (nextId db "assi_seq").2.deliveries r.delivery_id =
            some d := h
        simp only [hs]
        rw [if_pos hw]

/- ------------------------------------------------------------------
   Mark transporting: POST /deliveries/update-status-accept.
   Two variants are embedded:
   * updStatusAccept4 (src/unnamed/part_004 lines 682-791): reads the
     delivery and the matching assignment inside the transaction,
     requires the assignment status to be exactly accept, and only then
     writes assignment, delivery and rider location.  The route maps
     the thrown messages to 400.
   * updStatusAcceptServer (src/server.js lines 603-690): allocates an
     assignment id before the transaction, only rejects deliveries in
     transporting, finish or cancel, and when no matching assignment
     exists it creates a fresh one directly in transporting, so a
     waiting delivery can jump straight to transporting.  Its route
     maps every thrown error to 500.
   ------------------------------------------------------------------ -/

/-- Request body of POST /deliveries/update-status-accept. -/
structure TransportReq where
  delivery_id : Nat
  rider_id : Nat
  picture_status2 : Option String
  rider_lat : Option ℚ
  rider_lng : Option ℚ
deriving DecidableEq

/-- The limit-1 query on delivery_assignment filtered by delivery_id
and rider_id, in collection (document id) order. -/
def assignQuery (c : Col AssignmentDoc) (did rid : Nat) :
    List (Nat × AssignmentDoc) :=
  c.filter (fun e => e.2.delivery_id == did && e.2.rider_id == rid)

/-- POST /deliveries/update-status-accept, part_004 variant. -/
def updStatusAccept4 (db : DB) (r : TransportReq) : Except Err Nat × DB :=
  if r.delivery_id = 0 ∨ r.rider_id = 0 ∨ (strOpt r.picture_status2).isNone then
    (.error ⟨400, "delivery_id, rider_id, picture_status2 are required"⟩, db)
  else if r.rider_lat.isNone ∨ r.rider_lng.isNone then
    (.error ⟨400, "rider_lat, rider_lng are required"⟩, db)
  else
    match colGet? db.deliveries r.delivery_id with
    | none => (.error ⟨400, "delivery not found"⟩, db)
    | some _ =>
        match (assignQuery db.assignments r.delivery_id r.rider_id).head? with
        | none =>
            (.error ⟨400, "assignment not found for this delivery/rider"⟩, db)
        | some ka =>
            if ka.2.status ≠ "accept" then
              (.error ⟨400,
                "Assignment must be in \u0027accept\u0027 to set transporting"⟩, db)
            else
              let finalPic2 := jsOrStr r.picture_status2 ka.2.picture_status2
              (.ok ka.2.assi_id,
                { db with
                  assignments := colUpdate db.assignments ka.1
                    (fun aa => { aa with
                      status := "transporting",
                      picture_status2 := finalPic2 }),
                  deliveries := colUpdate db.deliveries r.delivery_id
                    (fun dd => { dd with status := "transporting" }),
                  riderLocs := colSet db.riderLocs r.rider_id
                    (riderLocMerge (colGet? db.riderLocs r.rider_id)
                      r.rider_id (r.rider_lat.getD 0) (r.rider_lng.getD 0)) })

/-- POST /deliveries/update-status-accept, server.js variant. -/
def updStatusAcceptServer (db : DB) (r : TransportReq) :
    Except Err Nat × DB :=
  if r.delivery_id = 0 ∨ r.rider_id = 0 ∨ (strOpt r.picture_status2).isNone then
    (.error ⟨400, "delivery_id, rider_id, picture_status2 are required"⟩, db)
  else if r.rider_lat.isNone ∨ r.rider_lng.isNone then
    (.error ⟨400, "rider_lat, rider_lng are required"⟩, db)
  else
    let p := nextId db "assi_seq"
    let db1 := p.2
    match colGet? db1.deliveries r.delivery_id with
    | none => (.error ⟨500, "delivery not found"⟩, db1)
    | some d =>
        if d.status = "transporting" ∨ d.status = "finish" ∨
            d.status = "cancel" then
          (.error ⟨500, "Delivery already in progress or finished"⟩, db1)
        else
          match (assignQuery db1.assignments r.delivery_id r.rider_id).head? with
          | some ka =>
              if ka.2.status ≠ "accept" then
                (.error ⟨500, "Assignment isn\u0027t in \u0027accept\u0027 state"⟩,
                  db1)
              else
                (.ok ka.2.assi_id,
                  { db1 with
                    assignments := colUpdate db1.assignments ka.1
                      (fun aa => { aa with
                        status := "transporting",
                        picture_status2 :=
                          jsOrStr r.picture_status2 ka.2.picture_status2 }),
                    deliveries := colUpdate db1.deliveries r.delivery_id
                      (fun dd => { dd with status := "transporting" }),
                    riderLocs := colSet db1.riderLocs r.rider_id
                      (riderLocMerge (colGet? db1.riderLocs r.rider_id)
                        r.rider_id (r.rider_lat.getD 0)
                        (r.rider_lng.getD 0)) })
          | none =>
              let a : AssignmentDoc :=
                { assi_id := p.1, delivery_id := r.delivery_id,
                  rider_id := r.rider_id,
                  picture_status2 := strOpt r.picture_status2,
                  picture_status3 := none, status := "transporting" }
              (.ok p.1,
                { db1 with
                  assignments := colSet db1.assignments p.1 a,
                  deliveries := colUpdate db1.deliveries r.delivery_id
                    (fun dd => { dd with status := "transporting" }),
                  riderLocs := colSet db1.riderLocs r.rider_id
                    (riderLocMerge (colGet? db1.riderLocs r.rider_id)
                      r.rider_id (r.rider_lat.getD 0)
                      (r.rider_lng.getD 0)) })

/- ------------------------------------------------------------------
   Mark finish: POST /deliveries/update-status-finish
   (src/server.js lines 785-839; the part_004 variant lines 911-997
   has the same checks, writes and error responses and a richer
   success body).  All rejections happen before any write; the two
   success writes (assignment, then delivery) are sequential, not a
   transaction, in the source.
   ------------------------------------------------------------------ -/

/-- Request body of POST /deliveries/update-status-finish. -/
structure FinishReq where
  delivery_id : Nat
  picture_status3 : Option String
  rider_id : Option Nat
deriving DecidableEq

/-- The query on delivery_assignment filtered by delivery_id, in
collection (document id) order. -/
def finishQuery (c : Col AssignmentDoc) (did : Nat) :
    List (Nat × AssignmentDoc) :=
  c.filter (fun e => e.2.delivery_id == did)

/-- The optional rider authorisation check of the finish handler:
true when a rider_id was supplied and differs from the assignment. -/
def riderMismatch (r : FinishReq) (a : AssignmentDoc) : Bool :=
  match r.rider_id with
  | some rid => rid != a.rider_id
  | none => false

/-- POST /deliveries/update-status-finish. -/
def finishDelivery (db : DB) (r : FinishReq) :
    Except Err (Nat × Nat × Nat) × DB :=
  if r.delivery_id = 0 then
    (.error ⟨400, "delivery_id is required"⟩, db)
  else
    let ms := finishQuery db.assignments r.delivery_id
    if ms.isEmpty then
      (.error ⟨404, "assignment for this delivery not found"⟩, db)
    else
      match ms.find? (fun e => e.2.status == "transporting") with
      | none =>
          (.error ⟨400,
            "No assignment in \u0027transporting\u0027 for this delivery"⟩, db)
      | some ka =>
          if riderMismatch r ka.2 then
            (.error ⟨403, "rider_id does not match assignment"⟩, db)
          else
            match colGet? db.deliveries ka.2.delivery_id with
            | none => (.error ⟨404, "delivery not found"⟩, db)
            | some _ =>
                (.ok (ka.2.delivery_id, ka.2.assi_id, ka.2.rider_id),
                  { db with
                    assignments := colUpdate db.assignments ka.1
                      (fun aa => { aa with
                        status := "finish",
                        picture_status3 :=
                          match strOpt r.picture_status3 with
                          | some s => some s
                          | none => aa.picture_status3 }),
                    deliveries := colUpdate db.deliveries ka.2.delivery_id
                      (fun dd => { dd with status := "finish" }) })

/- ------------------------------------------------------------------
   Rider overview: GET /riders/overview/:riderId
   (src/unnamed/part_004 lines 830-906): scans every assignment of the
   rider, keeps the accept/transporting ones and selects the one with
   the numerically largest assi_id; returns nulls when there is none.
   Read-only.
   ------------------------------------------------------------------ -/

/-- Response of GET /riders/overview/:riderId. -/
structure OverviewRes where
  rider_lat : Option ℚ
  rider_lng : Option ℚ
  receiver_lat : Option ℚ
  receiver_lng : Option ℚ
  delivery_id : Option Nat
deriving DecidableEq

/-- One step of the fold the handler runs: keep the accept or
transporting assignment with the strictly largest assi_id seen so
far (a tie keeps the earlier one, as the strict greater-than in the
source does). -/
def ovStep (latest : Option AssignmentDoc) (e : Nat × AssignmentDoc) :
    Option AssignmentDoc :=
  if e.2.status = "accept" ∨ e.2.status = "transporting" then
    match latest with
    | none => some e.2
    | some l => if l.assi_id < e.2.assi_id then some e.2 else some l
  else latest

/-- The fold the handler runs over the assignments of the rider. -/
def latestActive (c : Col AssignmentDoc) (rid : Nat) :
    Option AssignmentDoc :=
  (c.filter (fun e => e.2.rider_id == rid)).foldl ovStep none

/-- GET /riders/overview/:riderId, part_004 variant. -/
def riderOverview (db : DB) (riderId : Nat) : Except Err OverviewRes :=
  match colGet? db.riderLocs riderId with
  | none => .error ⟨404, "rider location not found"⟩
  | some loc =>
      match latestActive db.assignments riderId with
      | none =>
          .ok { rider_lat := loc.lat, rider_lng := loc.lng,
                receiver_lat := none, receiver_lng := none,
                delivery_id := none }
      | some a =>
          match colGet? db.deliveries a.delivery_id with
          | none =>
              .ok { rider_lat := loc.lat, rider_lng := loc.lng,
                    receiver_lat := none, receiver_lng := none,
                    delivery_id := some a.delivery_id }
          | some d =>
              match colGet? db.addresses d.address_id_receiver with
              | none =>
                  .ok { rider_lat := loc.lat, rider_lng := loc.lng,
                        receiver_lat := none, receiver_lng := none,
                        delivery_id := some a.delivery_id }
              | some ad =>
                  .ok { rider_lat := loc.lat, rider_lng := loc.lng,
                        receiver_lat := ad.lat, receiver_lng := ad.lng,
                        delivery_id := some a.delivery_id }

/- ------------------------------------------------------------------
   Rider location update: POST /rider/location/update
   (src/unnamed/part_000 lines 713-747, the registration Express
   dispatches to).  The handler calls two helpers that are declared
   nowhere in the source snapshots:
   * haversineMeters - Modelled from the spec: the spec requires a
     great-circle (haversine) distance in meters and states that any
     correct great-circle formula satisfies the contract, so the
     distance function is a parameter of the embedding.
   * toNum - Modelled from the spec: the Number() coercion, the
     identity on the already-numeric coordinates modelled here.
   The write path of the handler evaluates toNum(accuracy),
   toNum(heading) and toNum(speed), but accuracy, heading and speed
   are never destructured from the request body (the comment above the
   handler documents them as body fields), so reaching the write
   raises ReferenceError: accuracy is not defined, the catch turns it
   into an HTTP 500, and the stored coordinate is never overwritten.
   ------------------------------------------------------------------ -/

/-- Request body of POST /rider/location/update. -/
structure LocUpdateReq where
  rider_id : Nat
  lat : Option ℚ
  lng : Option ℚ
  address_id : Option Nat
deriving DecidableEq

/-- Outcome of the location update: the skip answer is the only
non-error answer this handler version can produce. -/
inductive LocUpdateRes where
  | skipped
  | updated
deriving DecidableEq

/-- POST /rider/location/update, part_000 first-registered handler,
parameterised by the (spec-modelled) haversineMeters distance. -/
def riderLocationUpdateP0 (hav : ℚ → ℚ → ℚ → ℚ → ℚ) (db : DB)
    (r : LocUpdateReq) : Except Err LocUpdateRes × DB :=
  if r.rider_id = 0 ∨ r.lat.isNone ∨ r.lng.isNone then
    (.error ⟨400, "rider_id, lat, lng are required"⟩, db)
  else
    match colGet? db.riderLocs r.rider_id with
    | some old =>
        match old.lat, old.lng with
        | some olat, some olng =>
            if hav olat olng (r.lat.getD 0) (r.lng.getD 0) < 2 then
              (.ok .skipped, db)
            else
              (.error ⟨500, "accuracy is not defined"⟩, db)
        | _, _ => (.error ⟨500, "accuracy is not defined"⟩, db)
    | none => (.error ⟨500, "accuracy is not defined"⟩, db)

/- ------------------------------------------------------------------
   Concrete fixtures used by witnesses and counterexamples.
   ------------------------------------------------------------------ -/

/-- A sample user record. -/
def sampleUser (i : Nat) (phone : String) : UserDoc :=
  { user_id := i, name := "user", password := "secret-pw",
    phone := phone, picture := none, role := 0 }

/-- A sample address record owned by a user. -/
def sampleAddr (i owner : Nat) : AddressDoc :=
  { address_id := i, user_id := owner, address := "somewhere",
    lat := some (55/4 : ℚ), lng := some (201/2 : ℚ) }

/-- A sample delivery record in a given status. -/
def sampleDelivery (i : Nat) (st : String) : DeliveryDoc :=
  { delivery_id := i, user_id_sender := 1, user_id_receiver := 2,
    phone_receiver := none, address_id_sender := 1,
    address_id_receiver := 2, picture_status1 := none,
    name_product := "box", picture_product := none,
    detail_product := "", amount := 1, status := st }

/-- A sample assignment record in a given status. -/
def sampleAssign (i did rid : Nat) (st : String) : AssignmentDoc :=
  { assi_id := i, delivery_id := did, rider_id := rid, status := st,
    picture_status2 := none, picture_status3 := none }

/-- A store with two users, their addresses and no deliveries. -/
def baseDB : DB :=
  { users := [(1, sampleUser 1 "0811111111"), (2, sampleUser 2 "0822222222")],
    addresses := [(1, sampleAddr 1 1), (2, sampleAddr 2 2)],
    deliveries := [], assignments := [], riderLocs := [], counters := [] }

/- ==================================================================
   C3 - sequence allocator.
   ================================================================== -/

/-- C3: every allocator call reads the current counter value of the
named sequence (a missing record reads as 0), writes back current + 1
and returns current + 1; and along any serialised burst of calls the
values returned for one sequence name are strictly increasing in
commit order, so every value is strictly above all earlier ones and no
two callers observe the same value. -/
theorem nextId_spec :
    (∀ (db : DB) (s : String),
        nextId db s =
          ((counterGet? db.counters s).getD 0 + 1,
           { db with counters := (counterSet db.counters s
               ((counterGet? db.counters s).getD 0 + 1)) })) ∧
    (∀ (db : DB) (trace : List String) (s : String),
        List.Pairwise (· < ·) (returnsFor db trace s)) :=
  ⟨fun _ _ => rfl, fun db trace s => returnsFor_pairwise trace db s⟩

/- ==================================================================
   C10 - duplicate-phone registration leaks the stored document.
   ================================================================== -/

/-- C10: registering with a phone that already belongs to a stored
user fails with HTTP 409, creates no record and changes nothing in the
store, and the error payload the route spreads into the response body
is the entire stored document of that user, its plaintext password
included. -/
theorem register_duplicate_phone (db : DB) (r : UserReq) (k : Nat)
    (u : UserDoc)
    (hname : r.name ≠ "") (hpass : r.password ≠ "")
    (hphone : r.phone ≠ "") (hrole : r.role = 0 ∨ r.role = 1)
    (hdup : findUserByPhone db.users r.phone = some (k, u)) :
    createUser db r =
      (.error ⟨409, "phone already exists", some (k, u)⟩, db) ∧
    ∃ e, (createUser db r).1 = .error e ∧
      e.payload.map (fun p => p.2.password) = some u.password := by
  have h1 : ¬(r.name = "" ∨ r.password = "" ∨ r.phone = "") := by
    push_neg; exact ⟨hname, hpass, hphone⟩
  have h2 : ¬¬(r.role = 0 ∨ r.role = 1) := not_not_intro hrole
  have hmain : createUser db r =
      (.error ⟨409, "phone already exists", some (k, u)⟩, db) := by
    unfold createUser
    rw [if_neg h1, if_neg h2, hdup]
  exact ⟨hmain, ⟨⟨409, "phone already exists", some (k, u)⟩,
    by rw [hmain], rfl⟩⟩

/-- Witness for C10 at a concrete store and request. -/
theorem register_duplicate_phone_witness :
    createUser baseDB
        { name := "dup", password := "pw2", phone := "0811111111",
          picture := none, role := 0 } =
      (.error ⟨409, "phone already exists",
          some (1, sampleUser 1 "0811111111")⟩, baseDB) ∧
    ∃ e, (createUser baseDB
        { name := "dup", password := "pw2", phone := "0811111111",
          picture := none, role := 0 }).1 = .error e ∧
      e.payload.map (fun p => p.2.password) =
        some (sampleUser 1 "0811111111").password :=
  register_duplicate_phone baseDB
    { name := "dup", password := "pw2", phone := "0811111111",
      picture := none, role := 0 }
    1 (sampleUser 1 "0811111111")
    (by decide) (by decide) (by decide) (Or.inl rfl) (by decide)

/- ==================================================================
   C6 - created deliveries and the waiting status.
   ================================================================== -/

/-- A create request whose body carries an explicit status value. -/
def c6req : DeliveryReq :=
  { user_id_sender := 1, user_id_receiver := 2, phone_receiver := none,
    address_id_sender := 1, address_id_receiver := 2,
    picture_status1 := none, name_product := some "box",
    detail_product := none, picture_product := none, amount := some 1,
    status := some "finish" }

/-- C6 counterexample: a successful create whose request supplies
status "finish" persists the Delivery with status "finish", not
"waiting". -/
theorem createDelivery_status_passthrough :
    (∃ d, (createDelivery baseDB c6req).1 = .ok d ∧
       d.status = "finish") ∧
    statusOf (createDelivery baseDB c6req).2 1 = some "finish" :=
  ⟨⟨newDeliveryDoc baseDB c6req, rfl, rfl⟩, rfl⟩

/-- C6 amended: every successful create whose request does not supply
a truthy status persists the Delivery with status "waiting" (and the
returned document is the stored one). -/
theorem createDelivery_waiting (db : DB) (r : DeliveryReq)
    (hstat : strOpt r.status = none) :
    ∀ d, (createDelivery db r).1 = .ok d →
      d.status = "waiting" ∧
      colGet? (createDelivery db r).2.deliveries d.delivery_id = some d := by
  intro d hd
  have hw : strOr r.status "waiting" = "waiting" := by
    cases h : r.status with
    | none => simp [strOr]
    | some s =>
        have : s = "" := by
          by_contra hne
          simp [strOpt, h, hne] at hstat
        simp [strOr, h, this]
  rcases createDelivery_total db r with ⟨e, he⟩ | hok
  · rw [he] at hd
    exact absurd hd (by simp)
  · rw [hok] at hd
    simp only [Except.ok.injEq] at hd
    subst hd
    rw [hok]
    refine ⟨by simp [newDeliveryDoc, hw], ?_⟩
    simp [newDeliveryDoc, colGet?_colSet_self]

/-- Witness for C6 amended: a concrete create without a status stores
a waiting delivery. -/
theorem createDelivery_waiting_witness :
    (newDeliveryDoc baseDB { c6req with status := none }).status = "waiting" ∧
    colGet? (createDelivery baseDB { c6req with status := none }).2.deliveries
        (newDeliveryDoc baseDB { c6req with status := none }).delivery_id =
      some (newDeliveryDoc baseDB { c6req with status := none }) :=
  createDelivery_waiting baseDB { c6req with status := none } rfl
    (newDeliveryDoc baseDB { c6req with status := none }) rfl

/- ==================================================================
   C1 - accept is atomic: abort on non-waiting, otherwise commit the
   assignment, the delivery status and the rider location together.
   ================================================================== -/

/-- Setting a document under a key no current entry carries is, up to
permutation, consing the new entry. -/
theorem colSet_perm (c : Col α) (k : Nat) (v : α)
    (h : ∀ e ∈ c, e.1 ≠ k) : List.Perm (colSet c k v) ((k, v) :: c) := by
  induction c with
  | nil => simp [colSet]
  | cons e rest ih =>
      have hek : e.1 ≠ k := h e (List.mem_cons_self e rest)
      have hrest : ∀ e' ∈ rest, e'.1 ≠ k :=
        fun e' he' => h e' (List.mem_cons_of_mem _ he')
      by_cases h2 : keyLt k e.1
      · simp [colSet, hek, h2]
      · simp only [colSet, if_neg hek, if_neg h2]
        exact ((ih hrest).cons e).trans (List.Perm.swap _ _ _)

/-- C1: for a well-formed accept request on an existing Delivery, the
operation aborts with the conflict error and touches none of the five
document collections unless the Delivery status is waiting; when it is
waiting, the committed store carries exactly the one new accept
Assignment under the allocated id, the Delivery status accept, and the
rider location merged with the supplied coordinates - all together, as
one transaction. -/
theorem accept_atomic (db : DB) (r : AcceptReq) (d : DeliveryDoc)
    (lat lng : ℚ)
    (hdid : r.delivery_id ≠ 0) (hrid : r.rider_id ≠ 0)
    (hlat : r.rider_lat = some lat) (hlng : r.rider_lng = some lng)
    (hd : colGet? db.deliveries r.delivery_id = some d) :
    (d.status ≠ "waiting" →
      (acceptDelivery db r).1 =
        .error ⟨400, "Delivery already accepted or in progress"⟩ ∧
      (acceptDelivery db r).2.users = db.users ∧
      (acceptDelivery db r).2.addresses = db.addresses ∧
      (acceptDelivery db r).2.deliveries = db.deliveries ∧
      (acceptDelivery db r).2.assignments = db.assignments ∧
      (acceptDelivery db r).2.riderLocs = db.riderLocs) ∧
    (d.status = "waiting" →
      (acceptDelivery db r).1 = .ok (newAcceptAssign db r) ∧
      (acceptDelivery db r).2 = acceptSuccess db r ∧
      statusOf (acceptDelivery db r).2 r.delivery_id = some "accept" ∧
      colGet? (acceptDelivery db r).2.assignments
          (counterVal db "assi_seq" + 1) = some (newAcceptAssign db r) ∧
      colGet? (acceptDelivery db r).2.riderLocs r.rider_id =
        some (riderLocMerge (colGet? db.riderLocs r.rider_id)
          r.rider_id lat lng)) := by
  rcases acceptDelivery_total db r with
    ⟨h1, _⟩ | ⟨h1, _⟩ | ⟨h1, _⟩ | ⟨d', hd', hne, heq⟩ | ⟨d', hd', hwait, heq⟩
  · rcases h1 with h | h
    · exact absurd h hdid
    · exact absurd h hrid
  · rcases h1 with h | h
    · rw [h] at hlat; cases hlat
    · rw [h] at hlng; cases hlng
  · rw [hd] at h1; cases h1
  · rw [hd] at hd'
    cases hd'
    constructor
    · intro _
      rw [heq]
      exact ⟨rfl, rfl, rfl, rfl, rfl, rfl⟩
    · intro hww
      exact absurd hww hne
  · rw [hd] at hd'
    cases hd'
    constructor
    · intro hww
      exact absurd hwait hww
    · intro _
      rw [heq]
      refine ⟨rfl, rfl, ?_, ?_, ?_⟩
      · show statusOf (acceptSuccess db r) r.delivery_id = some "accept"
        unfold statusOf acceptSuccess
        simp only
        rw [colGet?_colUpdate_self, hd]
        rfl
      · show colGet? (acceptSuccess db r).assignments
            (counterVal db "assi_seq" + 1) = some (newAcceptAssign db r)
        unfold acceptSuccess
        simp only
        exact colGet?_colSet_self _ _ _
      · show colGet? (acceptSuccess db r).riderLocs r.rider_id =
            some (riderLocMerge (colGet? db.riderLocs r.rider_id)
              r.rider_id lat lng)
        unfold acceptSuccess
        simp only
        rw [colGet?_colSet_self, hlat, hlng]
        rfl

/-- A store holding one waiting delivery, for the accept witnesses. -/
def waitingDB : DB :=
  { baseDB with deliveries := [(1, sampleDelivery 1 "waiting")] }

/-- A well-formed accept request for rider 3 on delivery 1. -/
def acceptReq3 : AcceptReq :=
  { delivery_id := 1, rider_id := 3,
    rider_lat := some (55/4 : ℚ), rider_lng := some (201/2 : ℚ) }

/-- Witness for C1 at a concrete waiting delivery. -/
theorem accept_atomic_witness :
    ((sampleDelivery 1 "waiting").status ≠ "waiting" →
      (acceptDelivery waitingDB acceptReq3).1 =
        .error ⟨400, "Delivery already accepted or in progress"⟩ ∧
      (acceptDelivery waitingDB acceptReq3).2.users = waitingDB.users ∧
      (acceptDelivery waitingDB acceptReq3).2.addresses = waitingDB.addresses ∧
      (acceptDelivery waitingDB acceptReq3).2.deliveries = waitingDB.deliveries ∧
      (acceptDelivery waitingDB acceptReq3).2.assignments = waitingDB.assignments ∧
      (acceptDelivery waitingDB acceptReq3).2.riderLocs = waitingDB.riderLocs) ∧
    ((sampleDelivery 1 "waiting").status = "waiting" →
      (acceptDelivery waitingDB acceptReq3).1 =
        .ok (newAcceptAssign waitingDB acceptReq3) ∧
      (acceptDelivery waitingDB acceptReq3).2 =
        acceptSuccess waitingDB acceptReq3 ∧
      statusOf (acceptDelivery waitingDB acceptReq3).2
          acceptReq3.delivery_id = some "accept" ∧
      colGet? (acceptDelivery waitingDB acceptReq3).2.assignments
          (counterVal waitingDB "assi_seq" + 1) =
        some (newAcceptAssign waitingDB acceptReq3) ∧
      colGet? (acceptDelivery waitingDB acceptReq3).2.riderLocs
          acceptReq3.rider_id =
        some (riderLocMerge (colGet? waitingDB.riderLocs acceptReq3.rider_id)
          acceptReq3.rider_id (55/4 : ℚ) (201/2 : ℚ))) :=
  accept_atomic waitingDB acceptReq3 (sampleDelivery 1 "waiting")
    (55/4 : ℚ) (201/2 : ℚ) (by decide) (by decide) rfl rfl rfl

/- ==================================================================
   C2 - two serial accepts on one waiting delivery: one winner, one
   conflict, exactly one assignment.
   ================================================================== -/

/-- C2: serialising two accept transactions on one waiting Delivery
with different riders, the first commits, the second gets the conflict
business error (HTTP 400), and afterwards the Delivery is in accept
with exactly one Assignment referencing it. -/
theorem accept_single_winner (db : DB) (r1 r2 : AcceptReq)
    (d : DeliveryDoc) (lat1 lng1 lat2 lng2 : ℚ)
    (hsame : r2.delivery_id = r1.delivery_id)
    (hdid : r1.delivery_id ≠ 0)
    (hr1 : r1.rider_id ≠ 0) (hr2 : r2.rider_id ≠ 0)
    (hriders : r1.rider_id ≠ r2.rider_id)
    (hlat1 : r1.rider_lat = some lat1) (hlng1 : r1.rider_lng = some lng1)
    (hlat2 : r2.rider_lat = some lat2) (hlng2 : r2.rider_lng = some lng2)
    (hd : colGet? db.deliveries r1.delivery_id = some d)
    (hw : d.status = "waiting")
    (hnoa : ∀ e ∈ db.assignments, e.2.delivery_id ≠ r1.delivery_id)
    (hfresh : ∀ e ∈ db.assignments, e.1 ≠ counterVal db "assi_seq" + 1) :
    (acceptDelivery db r1).1 = .ok (newAcceptAssign db r1) ∧
    (acceptDelivery (acceptDelivery db r1).2 r2).1 =
      .error ⟨400, "Delivery already accepted or in progress"⟩ ∧
    statusOf (acceptDelivery (acceptDelivery db r1).2 r2).2
      r1.delivery_id = some "accept" ∧
    ((acceptDelivery (acceptDelivery db r1).2 r2).2.assignments.countP
      (fun e => e.2.delivery_id == r1.delivery_id)) = 1 := by
  obtain ⟨ho1, hs1⟩ : (acceptDelivery db r1).1 = .ok (newAcceptAssign db r1) ∧
      (acceptDelivery db r1).2 = acceptSuccess db r1 := by
    rcases acceptDelivery_total db r1 with
      ⟨h1, _⟩ | ⟨h1, _⟩ | ⟨h1, _⟩ | ⟨d', hd', hne, _⟩ | ⟨d', hd', _, heq⟩
    · rcases h1 with h | h
      · exact absurd h hdid
      · exact absurd h hr1
    · rcases h1 with h | h
      · rw [h] at hlat1; cases hlat1
      · rw [h] at hlng1; cases hlng1
    · rw [hd] at h1; cases h1
    · rw [hd] at hd'; cases hd'; exact absurd hw hne
    · exact ⟨by rw [heq], by rw [heq]⟩
  refine ⟨ho1, ?_⟩
  rw [hs1]
  have hd2 : colGet? (acceptSuccess db r1).deliveries r2.delivery_id =
      some { d with status := "accept" } := by
    unfold acceptSuccess
    simp only
    rw [hsame, colGet?_colUpdate_self, hd]
    rfl
  rcases acceptDelivery_total (acceptSuccess db r1) r2 with
    ⟨h1, _⟩ | ⟨h1, _⟩ | ⟨h1, _⟩ | ⟨d', hd', _, heq⟩ | ⟨d', hd', hwait, _⟩
  · rcases h1 with h | h
    · rw [hsame] at h; exact absurd h hdid
    · exact absurd h hr2
  · rcases h1 with h | h
    · rw [h] at hlat2; cases hlat2
    · rw [h] at hlng2; cases hlng2
  · rw [hd2] at h1; cases h1
  · rw [hd2] at hd'
    cases hd'
    rw [heq]
    refine ⟨rfl, ?_, ?_⟩
    · show statusOf (nextId (acceptSuccess db r1) "assi_seq").2
          r1.delivery_id = some "accept"
      unfold statusOf
      have hg : colGet?
          (nextId (acceptSuccess db r1) "assi_seq").2.deliveries
          r1.delivery_id = some { d with status := "accept" } := by
        have h' := hd2
        rw [hsame] at h'
        exact h'
      rw [hg]
      rfl
    · show ((nextId (acceptSuccess db r1) "assi_seq").2.assignments.countP
          (fun e => e.2.delivery_id == r1.delivery_id)) = 1
      have hassign : (nextId (acceptSuccess db r1) "assi_seq").2.assignments =
          colSet db.assignments (counterVal db "assi_seq" + 1)
            (newAcceptAssign db r1) := rfl
      rw [hassign]
      rw [(colSet_perm db.assignments (counterVal db "assi_seq" + 1)
            (newAcceptAssign db r1) hfresh).countP_eq]
      rw [List.countP_cons]
      have h0 : db.assignments.countP
          (fun e => e.2.delivery_id == r1.delivery_id) = 0 :=
        List.countP_eq_zero.mpr (fun e he => by simp [hnoa e he])
      simp [h0, newAcceptAssign]
  · rw [hd2] at hd'
    cases hd'
    simp at hwait

/-- A second accept request, rider 4 on the same delivery. -/
def acceptReq4 : AcceptReq :=
  { delivery_id := 1, rider_id := 4,
    rider_lat := some 14, rider_lng := some 100 }

/-- Witness for C2 at a concrete waiting delivery and two riders. -/
theorem accept_single_winner_witness :
    (acceptDelivery waitingDB acceptReq3).1 =
      .ok (newAcceptAssign waitingDB acceptReq3) ∧
    (acceptDelivery (acceptDelivery waitingDB acceptReq3).2 acceptReq4).1 =
      .error ⟨400, "Delivery already accepted or in progress"⟩ ∧
    statusOf (acceptDelivery (acceptDelivery waitingDB acceptReq3).2
      acceptReq4).2 acceptReq3.delivery_id = some "accept" ∧
    ((acceptDelivery (acceptDelivery waitingDB acceptReq3).2
      acceptReq4).2.assignments.countP
        (fun e => e.2.delivery_id == acceptReq3.delivery_id)) = 1 :=
  accept_single_winner waitingDB acceptReq3 acceptReq4
    (sampleDelivery 1 "waiting") (55/4 : ℚ) (201/2 : ℚ) 14 100
    rfl (by decide) (by decide) (by decide) (by decide)
    rfl rfl rfl rfl rfl rfl
    (by intro e he; cases he) (by intro e he; cases he)

/- ==================================================================
   C5 - mark transporting requires the matching assignment to be in
   accept, and only then commits the three writes.
   ================================================================== -/

/-- The store a successful part_004 mark-transporting commits. -/
def transportSuccess (db : DB) (r : TransportReq)
    (ka : Nat × AssignmentDoc) : DB :=
  { users := db.users,
    addresses := db.addresses,
    deliveries := (colUpdate db.deliveries r.delivery_id
      (fun dd => { dd with status := "transporting" })),
    assignments := (colUpdate db.assignments ka.1
      (fun aa => { aa with
        status := "transporting",
        picture_status2 := jsOrStr r.picture_status2 ka.2.picture_status2 })),
    riderLocs := (colSet db.riderLocs r.rider_id
      (riderLocMerge (colGet? db.riderLocs r.rider_id) r.rider_id
        (r.rider_lat.getD 0) (r.rider_lng.getD 0))),
    counters := db.counters }

/-- Complete case analysis of the part_004 mark-transporting handler:
every rejection leaves the store untouched (the handler allocates
nothing before its transaction), and a commit produces exactly the
success store. -/
theorem updStatusAccept4_total (db : DB) (r : TransportReq) :
    ((r.delivery_id = 0 ∨ r.rider_id = 0 ∨
        (strOpt r.picture_status2).isNone = true) ∧
      updStatusAccept4 db r =
        (.error ⟨400, "delivery_id, rider_id, picture_status2 are required"⟩,
         db)) ∨
    ((r.rider_lat = none ∨ r.rider_lng = none) ∧
      updStatusAccept4 db r =
        (.error ⟨400, "rider_lat, rider_lng are required"⟩, db)) ∨
    (colGet? db.deliveries r.delivery_id = none ∧
      updStatusAccept4 db r = (.error ⟨400, "delivery not found"⟩, db)) ∨
    ((assignQuery db.assignments r.delivery_id r.rider_id).head? = none ∧
      updStatusAccept4 db r =
        (.error ⟨400, "assignment not found for this delivery/rider"⟩, db)) ∨
    (∃ ka, (assignQuery db.assignments r.delivery_id r.rider_id).head? =
        some ka ∧ ka.2.status ≠ "accept" ∧
      updStatusAccept4 db r =
        (.error ⟨400,
          "Assignment must be in \u0027accept\u0027 to set transporting"⟩,
         db)) ∨
    (∃ ka, (assignQuery db.assignments r.delivery_id r.rider_id).head? =
        some ka ∧ ka.2.status = "accept" ∧
      (∃ d, colGet? db.deliveries r.delivery_id = some d) ∧
      updStatusAccept4 db r = (.ok ka.2.assi_id, transportSuccess db r ka)) := by
  unfold updStatusAccept4
  split_ifs with h1 h2
  · exact Or.inl ⟨by simpa using h1, rfl⟩
  · refine Or.inr (Or.inl ⟨?_, rfl⟩)
    simpa [Option.isNone_iff_eq_none] using h2
  · rcases h : colGet? db.deliveries r.delivery_id with _ | d
    · exact Or.inr (Or.inr (Or.inl ⟨rfl, rfl⟩))
    · rcases hq : (assignQuery db.assignments r.delivery_id r.rider_id).head?
        with _ | ka
      · exact Or.inr (Or.inr (Or.inr (Or.inl ⟨rfl, rfl⟩)))
      · by_cases hacc : ka.2.status = "accept"
        · refine Or.inr (Or.inr (Or.inr (Or.inr (Or.inr
            ⟨ka, rfl, hacc, ⟨d, rfl⟩, ?_⟩))))
          dsimp only
          rw [if_neg (by simp [hacc])]
          rfl
        · refine Or.inr (Or.inr (Or.inr (Or.inr (Or.inl
            ⟨ka, rfl, hacc, ?_⟩))))
          dsimp only
          rw [if_pos hacc]

/-- C5: a well-formed mark-transporting request against part_004, on an
existing Delivery, is rejected with the store untouched when the
limit-1 query for the (delivery_id, rider_id) Assignment finds nothing
or finds an Assignment whose status is not exactly accept; when it
finds one in accept, the commit is exactly: that Assignment moved to
transporting with the pickup image attached, the Delivery moved to
transporting, and the rider location merged with the supplied
coordinates. -/
theorem transporting_requires_accept (db : DB) (r : TransportReq)
    (d0 : DeliveryDoc) (lat lng : ℚ) (pic : String)
    (hdid : r.delivery_id ≠ 0) (hrid : r.rider_id ≠ 0)
    (hpic : strOpt r.picture_status2 = some pic)
    (hlat : r.rider_lat = some lat) (hlng : r.rider_lng = some lng)
    (hdel : colGet? db.deliveries r.delivery_id = some d0) :
    ((assignQuery db.assignments r.delivery_id r.rider_id).head? = none →
      updStatusAccept4 db r =
        (.error ⟨400, "assignment not found for this delivery/rider"⟩, db)) ∧
    (∀ ka, (assignQuery db.assignments r.delivery_id r.rider_id).head? =
        some ka →
      (ka.2.status ≠ "accept" →
        updStatusAccept4 db r =
          (.error ⟨400,
            "Assignment must be in \u0027accept\u0027 to set transporting"⟩,
           db)) ∧
      (ka.2.status = "accept" →
        updStatusAccept4 db r = (.ok ka.2.assi_id, transportSuccess db r ka) ∧
        statusOf (updStatusAccept4 db r).2 r.delivery_id =
          some "transporting" ∧
        colGet? (updStatusAccept4 db r).2.riderLocs r.rider_id =
          some (riderLocMerge (colGet? db.riderLocs r.rider_id)
            r.rider_id lat lng))) := by
  have hval : ¬(r.delivery_id = 0 ∨ r.rider_id = 0 ∨
      (strOpt r.picture_status2).isNone = true) := by
    push_neg
    exact ⟨hdid, hrid, by simp [hpic]⟩
  rcases updStatusAccept4_total db r with
    ⟨h1, _⟩ | ⟨h1, _⟩ | ⟨h1, _⟩ | ⟨h1, heq⟩ |
    ⟨ka, hka, hne, heq⟩ | ⟨ka, hka, hacc, _, heq⟩
  · exact absurd h1 hval
  · rcases h1 with h | h
    · rw [h] at hlat; cases hlat
    · rw [h] at hlng; cases hlng
  · rw [hdel] at h1; cases h1
  · constructor
    · intro _; exact heq
    · intro ka hka
      rw [h1] at hka; cases hka
  · constructor
    · intro hq; rw [hka] at hq; cases hq
    · intro ka' hka'
      rw [hka] at hka'
      cases hka'
      refine ⟨fun _ => heq, fun hacc => absurd hacc hne⟩
  · constructor
    · intro hq; rw [hka] at hq; cases hq
    · intro ka' hka'
      rw [hka] at hka'
      cases hka'
      refine ⟨fun hne => absurd hacc hne, fun _ => ⟨heq, ?_, ?_⟩⟩
      · rw [heq]
        show statusOf (transportSuccess db r ka) r.delivery_id =
          some "transporting"
        unfold statusOf transportSuccess
        simp only
        rw [colGet?_colUpdate_self, hdel]
        rfl
      · rw [heq]
        show colGet? (transportSuccess db r ka).riderLocs r.rider_id = _
        unfold transportSuccess
        simp only
        rw [colGet?_colSet_self, hlat, hlng]
        rfl

/-- A store with delivery 1 in accept and its accept assignment for
rider 3. -/
def acceptedDB : DB :=
  { baseDB with
    deliveries := [(1, sampleDelivery 1 "accept")],
    assignments := [(1, sampleAssign 1 1 3 "accept")],
    counters := [("delivery_seq", 1), ("assi_seq", 1)] }

/-- A well-formed mark-transporting request for rider 3, delivery 1. -/
def transportReq3 : TransportReq :=
  { delivery_id := 1, rider_id := 3, picture_status2 := some "pic2",
    rider_lat := some 14, rider_lng := some 100 }

/-- Witness for C5 at a concrete accepted delivery. -/
theorem transporting_requires_accept_witness :
    ((assignQuery acceptedDB.assignments transportReq3.delivery_id
        transportReq3.rider_id).head? = none →
      updStatusAccept4 acceptedDB transportReq3 =
        (.error ⟨400, "assignment not found for this delivery/rider"⟩,
         acceptedDB)) ∧
    (∀ ka, (assignQuery acceptedDB.assignments transportReq3.delivery_id
        transportReq3.rider_id).head? = some ka →
      (ka.2.status ≠ "accept" →
        updStatusAccept4 acceptedDB transportReq3 =
          (.error ⟨400,
            "Assignment must be in \u0027accept\u0027 to set transporting"⟩,
           acceptedDB)) ∧
      (ka.2.status = "accept" →
        updStatusAccept4 acceptedDB transportReq3 =
          (.ok ka.2.assi_id, transportSuccess acceptedDB transportReq3 ka) ∧
        statusOf (updStatusAccept4 acceptedDB transportReq3).2
          transportReq3.delivery_id = some "transporting" ∧
        colGet? (updStatusAccept4 acceptedDB transportReq3).2.riderLocs
          transportReq3.rider_id =
          some (riderLocMerge
            (colGet? acceptedDB.riderLocs transportReq3.rider_id)
            transportReq3.rider_id 14 100))) :=
  transporting_requires_accept acceptedDB transportReq3
    (sampleDelivery 1 "accept") 14 100 "pic2"
    (by decide) (by decide) rfl rfl rfl rfl

/- ==================================================================
   C7 - mark finish with no transporting assignment.
   ================================================================== -/

/-- The store a successful mark-finish leaves behind: the found
assignment moved to finish with the drop-off image attached when
supplied, and the delivery moved to finish. -/
def finishSuccess (db : DB) (r : FinishReq)
    (ka : Nat × AssignmentDoc) : DB :=
  { users := db.users,
    addresses := db.addresses,
    deliveries := (colUpdate db.deliveries ka.2.delivery_id
      (fun dd => { dd with status := "finish" })),
    assignments := (colUpdate db.assignments ka.1
      (fun aa => { aa with
        status := "finish",
        picture_status3 := match strOpt r.picture_status3 with
          | some s => some s
          | none => aa.picture_status3 })),
    riderLocs := db.riderLocs,
    counters := db.counters }

/-- Complete case analysis of the mark-finish handler: every rejection
happens before any write and leaves the store untouched; a success
commits exactly the finish store. -/
theorem finishDelivery_total (db : DB) (r : FinishReq) :
    (r.delivery_id = 0 ∧
      finishDelivery db r = (.error ⟨400, "delivery_id is required"⟩, db)) ∨
    (finishQuery db.assignments r.delivery_id = [] ∧
      finishDelivery db r =
        (.error ⟨404, "assignment for this delivery not found"⟩, db)) ∨
    (finishQuery db.assignments r.delivery_id ≠ [] ∧
      (finishQuery db.assignments r.delivery_id).find?
        (fun e => e.2.status == "transporting") = none ∧
      finishDelivery db r =
        (.error ⟨400,
          "No assignment in \u0027transporting\u0027 for this delivery"⟩, db)) ∨
    (∃ ka, (finishQuery db.assignments r.delivery_id).find?
        (fun e => e.2.status == "transporting") = some ka ∧
      riderMismatch r ka.2 = true ∧
      finishDelivery db r =
        (.error ⟨403, "rider_id does not match assignment"⟩, db)) ∨
    (∃ ka, (finishQuery db.assignments r.delivery_id).find?
        (fun e => e.2.status == "transporting") = some ka ∧
      riderMismatch r ka.2 = false ∧
      colGet? db.deliveries ka.2.delivery_id = none ∧
      finishDelivery db r = (.error ⟨404, "delivery not found"⟩, db)) ∨
    (∃ ka, (finishQuery db.assignments r.delivery_id).find?
        (fun e => e.2.status == "transporting") = some ka ∧
      riderMismatch r ka.2 = false ∧
      (∃ d0, colGet? db.deliveries ka.2.delivery_id = some d0) ∧
      finishDelivery db r =
        (.ok (ka.2.delivery_id, ka.2.assi_id, ka.2.rider_id),
         finishSuccess db r ka)) := by
  unfold finishDelivery
  by_cases h1 : r.delivery_id = 0
  · rw [if_pos h1]
    exact Or.inl ⟨h1, rfl⟩
  · rw [if_neg h1]
    dsimp only
    by_cases h2 : (finishQuery db.assignments r.delivery_id).isEmpty
    · rw [if_pos h2]
      exact Or.inr (Or.inl ⟨by simpa [List.isEmpty_iff] using h2, rfl⟩)
    · rw [if_neg h2]
      have hne : finishQuery db.assignments r.delivery_id ≠ [] := by
        simpa [List.isEmpty_iff] using h2
      generalize hf : (finishQuery db.assignments r.delivery_id).find?
          (fun e => e.2.status == "transporting") = q
      cases q with
      | none => exact Or.inr (Or.inr (Or.inl ⟨hne, rfl, rfl⟩))
      | some ka =>
          dsimp only
          by_cases hm : riderMismatch r ka.2
          · rw [if_pos hm]
            exact Or.inr (Or.inr (Or.inr (Or.inl ⟨ka, rfl, hm, rfl⟩)))
          · rw [if_neg hm]
            generalize hg : colGet? db.deliveries ka.2.delivery_id = g
            cases g with
            | none =>
                exact Or.inr (Or.inr (Or.inr (Or.inr (Or.inl
                  ⟨ka, rfl, by simpa using hm, hg, rfl⟩))))
            | some d0 =>
                refine Or.inr (Or.inr (Or.inr (Or.inr (Or.inr
                  ⟨ka, rfl, by simpa using hm, ⟨d0, hg⟩, ?_⟩))))
                dsimp only
                rfl

/-- A mark-finish request naming delivery 1 with no image and no rider
check. -/
def finReq1 : FinishReq :=
  { delivery_id := 1, picture_status3 := none, rider_id := none }

/-- C7 counterexample: marking finish on a Delivery with no Assignment
at all is rejected with the 404 not-found error, not the 400
invalid-state error the claim names, though the store is untouched. -/
theorem finish_no_assignment_not_found :
    finishDelivery waitingDB finReq1 =
      (.error ⟨404, "assignment for this delivery not found"⟩, waitingDB) ∧
    (finishDelivery waitingDB finReq1).1 ≠
      .error ⟨400,
        "No assignment in \u0027transporting\u0027 for this delivery"⟩ := by
  exact ⟨rfl, by decide⟩

/-- C7 amended: a mark-finish request on a Delivery with no Assignment
currently in transporting is rejected before any write - with the 404
not-found error when the Delivery has no Assignment at all, and with
the 400 invalid-state error otherwise - and the whole store, every
Delivery and Assignment field included, is unchanged. -/
theorem finish_requires_transporting (db : DB) (r : FinishReq)
    (hdid : r.delivery_id ≠ 0) :
    (finishQuery db.assignments r.delivery_id = [] →
      finishDelivery db r =
        (.error ⟨404, "assignment for this delivery not found"⟩, db)) ∧
    (finishQuery db.assignments r.delivery_id ≠ [] →
      (finishQuery db.assignments r.delivery_id).find?
        (fun e => e.2.status == "transporting") = none →
      finishDelivery db r =
        (.error ⟨400,
          "No assignment in \u0027transporting\u0027 for this delivery"⟩, db)) := by
  rcases finishDelivery_total db r with
    ⟨h1, _⟩ | ⟨h1, heq⟩ | ⟨h1, h2, heq⟩ |
    ⟨ka, hka, _, heq⟩ | ⟨ka, hka, _, _, heq⟩ | ⟨ka, hka, _, _, heq⟩
  · exact absurd h1 hdid
  · exact ⟨fun _ => heq, fun hne _ => absurd h1 hne⟩
  · exact ⟨fun he => absurd he h1, fun _ _ => heq⟩
  all_goals
    refine ⟨fun he => ?_, fun _ hn => ?_⟩
    · rw [he] at hka; cases hka
    · rw [hn] at hka; cases hka

/-- Witness for C7 amended at a store holding one accept assignment
(never transitioned to transporting). -/
theorem finish_requires_transporting_witness :
    (finishQuery acceptedDB.assignments finReq1.delivery_id = [] →
      finishDelivery acceptedDB finReq1 =
        (.error ⟨404, "assignment for this delivery not found"⟩,
         acceptedDB)) ∧
    (finishQuery acceptedDB.assignments finReq1.delivery_id ≠ [] →
      (finishQuery acceptedDB.assignments finReq1.delivery_id).find?
        (fun e => e.2.status == "transporting") = none →
      finishDelivery acceptedDB finReq1 =
        (.error ⟨400,
          "No assignment in \u0027transporting\u0027 for this delivery"⟩,
         acceptedDB)) :=
  finish_requires_transporting acceptedDB finReq1 (by decide)

/- ==================================================================
   C9 - rider overview picks the non-terminal assignment with the
   largest assi_id, or reports nulls.
   ================================================================== -/

/-- The accept/transporting documents of an assignment entry list, in
list order. -/
def activeOf (l : List (Nat × AssignmentDoc)) : List AssignmentDoc :=
  (l.map (·.2)).filter
    (fun a => a.status == "accept" || a.status == "transporting")

/-- Spec-side selection for the overview: scan all assignments of the
rider and keep only those with status accept or transporting. -/
def activeAssignments (c : Col AssignmentDoc) (rid : Nat) :
    List AssignmentDoc :=
  activeOf (c.filter (fun e => e.2.rider_id == rid))

/-- The overview fold returns none exactly when the accumulator is
empty and the list holds no active assignment. -/
theorem ovFold_eq_none (l : List (Nat × AssignmentDoc)) :
    ∀ acc, l.foldl ovStep acc = none ↔ (acc = none ∧ activeOf l = []) := by
  induction l with
  | nil => intro acc; simp [activeOf]
  | cons e rest ih =>
      intro acc
      by_cases ha : e.2.status = "accept" ∨ e.2.status = "transporting"
      · have hstep : ovStep acc e =
            (match acc with
             | none => some e.2
             | some l => if l.assi_id < e.2.assi_id then some e.2
                         else some l) := by
          unfold ovStep
          rw [if_pos ha]
        have hact : activeOf (e :: rest) = e.2 :: activeOf rest := by
          unfold activeOf
          simp only [List.map_cons, List.filter_cons]
          rw [if_pos (by simpa using ha)]
        rw [List.foldl_cons, ih, hstep, hact]
        cases acc with
        | none => simp
        | some l0 =>
            by_cases hlt : l0.assi_id < e.2.assi_id <;> simp [hlt]
      · have hstep : ovStep acc e = acc := by
          unfold ovStep
          rw [if_neg ha]
        have hact : activeOf (e :: rest) = activeOf rest := by
          unfold activeOf
          simp only [List.map_cons, List.filter_cons]
          rw [if_neg (by simpa using ha)]
        rw [List.foldl_cons, ih, hstep, hact]

/-- When the overview fold returns an assignment, that assignment is
one of the active ones (or was the accumulator), and its assi_id
dominates every active assignment and the accumulator. -/
theorem ovFold_eq_some (l : List (Nat × AssignmentDoc)) :
    ∀ acc a, l.foldl ovStep acc = some a →
      (∀ b ∈ activeOf l, b.assi_id ≤ a.assi_id) ∧
      (∀ c0, acc = some c0 → c0.assi_id ≤ a.assi_id) ∧
      (a ∈ activeOf l ∨ acc = some a) := by
  induction l with
  | nil =>
      intro acc a h
      simp only [List.foldl_nil] at h
      subst h
      exact ⟨by simp [activeOf], fun c0 hc => by cases hc; exact le_rfl,
        Or.inr rfl⟩
  | cons e rest ih =>
      intro acc a h
      rw [List.foldl_cons] at h
      by_cases ha : e.2.status = "accept" ∨ e.2.status = "transporting"
      · have hact : activeOf (e :: rest) = e.2 :: activeOf rest := by
          unfold activeOf
          simp only [List.map_cons, List.filter_cons]
          rw [if_pos (by simpa using ha)]
        cases acc with
        | none =>
            have hstep : ovStep none e = some e.2 := by
              unfold ovStep
              rw [if_pos ha]
            rw [hstep] at h
            rcases ih _ a h with ⟨hrest, hacc, hmem⟩
            have he2 : e.2.assi_id ≤ a.assi_id := hacc e.2 rfl
            refine ⟨?_, fun c0 hc => Option.noConfusion hc, ?_⟩
            · intro b hb
              rw [hact] at hb
              rcases List.mem_cons.mp hb with rfl | hb
              · exact he2
              · exact hrest b hb
            · rcases hmem with hm | hm
              · exact Or.inl (by rw [hact]; exact List.mem_cons_of_mem _ hm)
              · refine Or.inl (by
                  rw [hact, (Option.some.inj hm).symm]
                  exact List.mem_cons_self _ _)
        | some l0 =>
            by_cases hlt : l0.assi_id < e.2.assi_id
            · have hstep : ovStep (some l0) e = some e.2 := by
                unfold ovStep
                rw [if_pos ha]
                exact if_pos hlt
              rw [hstep] at h
              rcases ih _ a h with ⟨hrest, hacc, hmem⟩
              have he2 : e.2.assi_id ≤ a.assi_id := hacc e.2 rfl
              refine ⟨?_, ?_, ?_⟩
              · intro b hb
                rw [hact] at hb
                rcases List.mem_cons.mp hb with rfl | hb
                · exact he2
                · exact hrest b hb
              · intro c0 hc
                cases hc
                exact le_trans (le_of_lt hlt) he2
              · rcases hmem with hm | hm
                · exact Or.inl (by rw [hact]; exact List.mem_cons_of_mem _ hm)
                · refine Or.inl (by
                    rw [hact, (Option.some.inj hm).symm]
                    exact List.mem_cons_self _ _)
            · have hstep : ovStep (some l0) e = some l0 := by
                unfold ovStep
                rw [if_pos ha]
                exact if_neg hlt
              rw [hstep] at h
              rcases ih _ a h with ⟨hrest, hacc, hmem⟩
              have hl0 : l0.assi_id ≤ a.assi_id := hacc l0 rfl
              refine ⟨?_, ?_, ?_⟩
              · intro b hb
                rw [hact] at hb
                rcases List.mem_cons.mp hb with rfl | hb
                · exact le_trans (Nat.le_of_not_lt hlt) hl0
                · exact hrest b hb
              · intro c0 hc
                cases hc
                exact hl0
              · rcases hmem with hm | hm
                · exact Or.inl (by rw [hact]; exact List.mem_cons_of_mem _ hm)
                · exact Or.inr hm
      · have hact : activeOf (e :: rest) = activeOf rest := by
          unfold activeOf
          simp only [List.map_cons, List.filter_cons]
          rw [if_neg (by simpa using ha)]
        have hstep : ovStep acc e = acc := by
          unfold ovStep
          rw [if_neg ha]
        rw [hstep] at h
        rcases ih _ a h with ⟨hrest, hacc, hmem⟩
        refine ⟨by rw [hact]; exact hrest, hacc, ?_⟩
        rcases hmem with hm | hm
        · exact Or.inl (by rw [hact]; exact hm)
        · exact Or.inr hm

/-- C9: for a rider with a stored location, the overview reports nulls
for the delivery id and destination when the rider has no accept or
transporting Assignment; otherwise the handler selects an Assignment,
and the selected one is an active Assignment of the rider whose
assi_id is largest among them, its delivery_id is the one reported,
and the rider position reported is the stored one. -/
theorem riderOverview_spec (db : DB) (rid : Nat) (loc : RiderLocationDoc)
    (hloc : colGet? db.riderLocs rid = some loc) :
    (activeAssignments db.assignments rid = [] →
      riderOverview db rid =
        .ok { rider_lat := loc.lat, rider_lng := loc.lng,
              receiver_lat := none, receiver_lng := none,
              delivery_id := none }) ∧
    (activeAssignments db.assignments rid ≠ [] →
      ∃ a, latestActive db.assignments rid = some a) ∧
    (∀ a, latestActive db.assignments rid = some a →
      a ∈ activeAssignments db.assignments rid ∧
      (∀ b ∈ activeAssignments db.assignments rid, b.assi_id ≤ a.assi_id) ∧
      ∃ res, riderOverview db rid = .ok res ∧
        res.delivery_id = some a.delivery_id ∧
        res.rider_lat = loc.lat ∧ res.rider_lng = loc.lng) := by
  refine ⟨?_, ?_, ?_⟩
  · intro hempty
    have hnone : latestActive db.assignments rid = none :=
      (ovFold_eq_none _ none).mpr ⟨rfl, hempty⟩
    unfold riderOverview
    rw [hloc]
    dsimp only
    rw [hnone]
  · intro hne
    cases hl : latestActive db.assignments rid with
    | none => exact absurd ((ovFold_eq_none _ none).mp hl).2 hne
    | some a => exact ⟨a, rfl⟩
  · intro a ha
    rcases ovFold_eq_some _ none a ha with ⟨hmax, _, hmem⟩
    have hmem' : a ∈ activeAssignments db.assignments rid := by
      rcases hmem with hm | hm
      · exact hm
      · exact Option.noConfusion hm
    refine ⟨hmem', hmax, ?_⟩
    unfold riderOverview
    rw [hloc]
    dsimp only
    rw [ha]
    dsimp only
    generalize colGet? db.deliveries a.delivery_id = gd
    cases gd with
    | none => exact ⟨_, rfl, rfl, rfl, rfl⟩
    | some d =>
        dsimp only
        generalize colGet? db.addresses d.address_id_receiver = ga
        cases ga with
        | none => exact ⟨_, rfl, rfl, rfl, rfl⟩
        | some ad => exact ⟨_, rfl, rfl, rfl, rfl⟩

/-- A stored rider location for rider 3. -/
def overviewLoc : RiderLocationDoc :=
  { rider_location_id := some "3", user_id := "3", address_id := none,
    lat := some 13, lng := some 100 }

/-- A store where rider 3 has a location, one accept assignment on
delivery 1 and one finished assignment on delivery 2. -/
def overviewDB : DB :=
  { baseDB with
    deliveries := [(1, sampleDelivery 1 "accept")],
    assignments := [(1, sampleAssign 1 1 3 "accept"),
                    (2, sampleAssign 2 2 3 "finish")],
    riderLocs := [(3, overviewLoc)] }

/-- Witness for C9 at a concrete store. -/
theorem riderOverview_spec_witness :
    (activeAssignments overviewDB.assignments 3 = [] →
      riderOverview overviewDB 3 =
        .ok { rider_lat := overviewLoc.lat, rider_lng := overviewLoc.lng,
              receiver_lat := none, receiver_lng := none,
              delivery_id := none }) ∧
    (activeAssignments overviewDB.assignments 3 ≠ [] →
      ∃ a, latestActive overviewDB.assignments 3 = some a) ∧
    (∀ a, latestActive overviewDB.assignments 3 = some a →
      a ∈ activeAssignments overviewDB.assignments 3 ∧
      (∀ b ∈ activeAssignments overviewDB.assignments 3,
        b.assi_id ≤ a.assi_id) ∧
      ∃ res, riderOverview overviewDB 3 = .ok res ∧
        res.delivery_id = some a.delivery_id ∧
        res.rider_lat = overviewLoc.lat ∧
        res.rider_lng = overviewLoc.lng) :=
  riderOverview_spec overviewDB 3 overviewLoc rfl

/- ==================================================================
   C8 - rider location dedup: the skip half behaves as claimed, the
   update half crashes on the undeclared accuracy variable.
   ================================================================== -/

/-- C8: for any distance function standing in for the spec-modelled
haversineMeters, a well-formed location upsert against the part_000
handler with a stored coordinate pair is skipped with the store
unchanged when the distance is under the 2-meter threshold, but beyond
the threshold the handler raises ReferenceError (accuracy is not
defined) before its write, answers HTTP 500 and leaves the stored
coordinate unchanged, instead of overwriting it and reporting
updated=true as the claim (and the comment above the handler, and the
fixed duplicate handler below it) describe. -/
theorem riderLocationUpdate_bug (hav : ℚ → ℚ → ℚ → ℚ → ℚ) (db : DB)
    (r : LocUpdateReq) (old : RiderLocationDoc) (olat olng lat lng : ℚ)
    (hrid : r.rider_id ≠ 0) (hlat : r.lat = some lat)
    (hlng : r.lng = some lng)
    (hold : colGet? db.riderLocs r.rider_id = some old)
    (holat : old.lat = some olat) (holng : old.lng = some olng) :
    (hav olat olng lat lng < 2 →
      riderLocationUpdateP0 hav db r = (.ok .skipped, db)) ∧
    (¬ hav olat olng lat lng < 2 →
      riderLocationUpdateP0 hav db r =
        (.error ⟨500, "accuracy is not defined"⟩, db)) := by
  have h1 : ¬(r.rider_id = 0 ∨ r.lat.isNone = true ∨ r.lng.isNone = true) := by
    push_neg
    exact ⟨hrid, by simp [hlat], by simp [hlng]⟩
  unfold riderLocationUpdateP0
  rw [if_neg h1, hold]
  dsimp only
  rw [holat, holng]
  rw [hlat, hlng]
  simp only [Option.getD_some]
  constructor
  · intro hnear
    rw [if_pos hnear]
  · intro hfar
    rw [if_neg hfar]

/-- A store where rider 3 has a stored coordinate. -/
def locDB : DB := { baseDB with riderLocs := [(3, overviewLoc)] }

/-- Witness for C8: a concrete distance function and request one
degree of latitude away from the stored coordinate. -/
theorem riderLocationUpdate_bug_witness :
    ((fun _ _ _ _ => (111194 : ℚ)) 13 100 14 100 < 2 →
      riderLocationUpdateP0 (fun _ _ _ _ => (111194 : ℚ)) locDB
          { rider_id := 3, lat := some 14, lng := some 100,
            address_id := none } =
        (.ok .skipped, locDB)) ∧
    (¬ (fun _ _ _ _ => (111194 : ℚ)) 13 100 14 100 < 2 →
      riderLocationUpdateP0 (fun _ _ _ _ => (111194 : ℚ)) locDB
          { rider_id := 3, lat := some 14, lng := some 100,
            address_id := none } =
        (.error ⟨500, "accuracy is not defined"⟩, locDB)) :=
  riderLocationUpdate_bug (fun _ _ _ _ => (111194 : ℚ)) locDB
    { rider_id := 3, lat := some 14, lng := some 100, address_id := none }
    overviewLoc 13 100 14 100 (by decide) rfl rfl rfl rfl rfl

/- ==================================================================
   C4 - the delivery status state machine.
   ================================================================== -/

/-- Position of a status on the chain waiting, accept, transporting,
finish. -/
def chainRank (s : String) : Option Nat :=
  if s = "waiting" then some 0
  else if s = "accept" then some 1
  else if s = "transporting" then some 2
  else if s = "finish" then some 3
  else none

/-- One observation step of a delivery status is forward: the status
is unchanged, or a new delivery appears at waiting, or the status
climbs exactly one chain position. -/
def forwardStep (s t : Option String) : Bool :=
  match s, t with
  | none, none => true
  | none, some t' => t' == "waiting"
  | some _, none => false
  | some s', some t' =>
      t' == s' ||
      (match chainRank s', chainRank t' with
       | some k, some k' => k' == k + 1
       | _, _ => false)

/-- The lifecycle operations of the state machine. -/
inductive Op where
  | create (r : DeliveryReq)
  | accept (r : AcceptReq)
  | transport (r : TransportReq)
  | finish (r : FinishReq)

/-- Running one operation against the store (the committed store,
whether the handler answered with a success or a rejection). -/
def step (db : DB) : Op → DB
  | .create r => (createDelivery db r).2
  | .accept r => (acceptDelivery db r).2
  | .transport r => (updStatusAccept4 db r).2
  | .finish r => (finishDelivery db r).2

/-- The operation does not smuggle in a caller-chosen status: only
create can, through its status passthrough. -/
def noStatusOverride : Op → Bool
  | .create r => (strOpt r.status).isNone
  | _ => true

/-- A create request that carries an explicit transporting status. -/
def c4req : DeliveryReq := { c6req with status := some "transporting" }

/-- C4 counterexample: the claim fails on the code in two independent
ways.  First, createDelivery persists a caller-chosen status, so a new
Delivery can open its lifetime at transporting rather than waiting.
Second, the server.js update-status-accept variant moves a waiting
Delivery with no Assignment straight to transporting, skipping accept. -/
theorem delivery_status_skips :
    (statusOf baseDB 1 = none ∧
     statusOf (step baseDB (Op.create c4req)) 1 = some "transporting" ∧
     forwardStep (statusOf baseDB 1)
       (statusOf (step baseDB (Op.create c4req)) 1) = false) ∧
    (statusOf waitingDB 1 = some "waiting" ∧
     (updStatusAcceptServer waitingDB transportReq3).1 = .ok 1 ∧
     statusOf (updStatusAcceptServer waitingDB transportReq3).2 1 =
       some "transporting" ∧
     forwardStep (statusOf waitingDB 1)
       (statusOf (updStatusAcceptServer waitingDB transportReq3).2 1) =
       false) := by
  exact ⟨⟨rfl, rfl, rfl⟩, ⟨rfl, rfl, rfl, rfl⟩⟩

/-- The reachability invariant of the restricted state machine:
document ids match their keys and stay below the counters, statuses
stay on the chain, every assignment mirrors the status of its
delivery, and a delivery is referenced by at most one assignment. -/
def Inv (db : DB) : Prop :=
  (∀ e ∈ db.deliveries, e.1 = e.2.delivery_id) ∧
  (∀ e ∈ db.deliveries, e.2.delivery_id ≤ counterVal db "delivery_seq") ∧
  (∀ e ∈ db.deliveries, e.2.status = "waiting" ∨ e.2.status = "accept" ∨
    e.2.status = "transporting" ∨ e.2.status = "finish") ∧
  (∀ e ∈ db.assignments, e.1 = e.2.assi_id) ∧
  (∀ e ∈ db.assignments, e.2.assi_id ≤ counterVal db "assi_seq") ∧
  (∀ e ∈ db.assignments, statusOf db e.2.delivery_id = some e.2.status) ∧
  (∀ e ∈ db.assignments, e.2.status = "accept" ∨
    e.2.status = "transporting" ∨ e.2.status = "finish") ∧
  (∀ e ∈ db.assignments, ∀ e2 ∈ db.assignments,
    e.2.delivery_id = e2.2.delivery_id → e = e2) ∧
  (∀ e ∈ db.assignments, ∀ e2 ∈ db.assignments, e.1 = e2.1 → e = e2)

instance (db : DB) : Decidable (Inv db) := by
  unfold Inv
  infer_instance

/-- A status observation never moves under an unchanged status. -/
theorem forwardStep_refl (s : Option String) : forwardStep s s = true := by
  cases s with
  | none => rfl
  | some s' => simp [forwardStep]

/-- Allocating an id never lowers any counter. -/
theorem counterVal_nextId_le (db : DB) (s t : String) :
    counterVal db t ≤ counterVal (nextId db s).2 t := by
  by_cases h : t = s
  · subst h
    rw [counterVal_nextId_self]
    exact Nat.le_succ _
  · rw [counterVal_nextId_ne db s t h]

/-- A store change that keeps the deliveries and assignments and only
raises the two id counters preserves the invariant and moves no
status. -/
theorem Inv_of_sameDocs (db db' : DB)
    (hd : db'.deliveries = db.deliveries)
    (ha : db'.assignments = db.assignments)
    (hc1 : counterVal db "delivery_seq" ≤ counterVal db' "delivery_seq")
    (hc2 : counterVal db "assi_seq" ≤ counterVal db' "assi_seq")
    (hInv : Inv db) :
    Inv db' ∧ ∀ id, forwardStep (statusOf db id) (statusOf db' id) = true := by
  obtain ⟨i1, i2, i3, i4, i5, i6, i7, i8, i9⟩ := hInv
  have hst : ∀ id, statusOf db' id = statusOf db id := by
    intro id
    unfold statusOf
    rw [hd]
  refine ⟨⟨?_, ?_, ?_, ?_, ?_, ?_, ?_, ?_, ?_⟩, ?_⟩
  · rw [hd]; exact i1
  · rw [hd]; intro e he; exact le_trans (i2 e he) hc1
  · rw [hd]; exact i3
  · rw [ha]; exact i4
  · rw [ha]; intro e he; exact le_trans (i5 e he) hc2
  · rw [ha]
    intro e he
    rw [hst]
    exact i6 e he
  · rw [ha]; exact i7
  · rw [ha]; exact i8
  · rw [ha]; exact i9
  · intro id
    rw [hst]
    exact forwardStep_refl _

/-- The status value strOr falls back to when the optional string is
falsy. -/
theorem strOr_of_strOpt_none (o : Option String) (d : String)
    (h : strOpt o = none) : strOr o d = d := by
  cases o with
  | none => rfl
  | some s =>
      by_cases hs : s = ""
      · simp [strOr, hs]
      · simp [strOpt, hs] at h

/-- Create preserves the invariant and only introduces a waiting
delivery, when the request does not override the status. -/
theorem inv_step_create (db : DB) (r : DeliveryReq) (hInv : Inv db)
    (hst : strOpt r.status = none) :
    Inv (createDelivery db r).2 ∧
    ∀ id, forwardStep (statusOf db id)
      (statusOf (createDelivery db r).2 id) = true := by
  rcases createDelivery_total db r with ⟨e, he⟩ | hok
  · rw [he]
    exact ⟨hInv, fun id => forwardStep_refl _⟩
  · rw [hok]
    obtain ⟨i1, i2, i3, i4, i5, i6, i7, i8, i9⟩ := hInv
    have hndst : (newDeliveryDoc db r).status = "waiting" :=
      strOr_of_strOpt_none r.status "waiting" hst
    have hfresh : ∀ e ∈ db.deliveries,
        e.1 ≠ counterVal db "delivery_seq" + 1 := by
      intro e he
      rw [i1 e he]
      have := i2 e he
      omega
    have hnone : colGet? db.deliveries
        (counterVal db "delivery_seq" + 1) = none :=
      colGet?_eq_none _ _ hfresh
    have hcd : counterVal
        ({ (nextId db "delivery_seq").2 with deliveries := (colSet
            db.deliveries (counterVal db "delivery_seq" + 1)
            (newDeliveryDoc db r)) } : DB) "delivery_seq" =
        counterVal db "delivery_seq" + 1 :=
      counterVal_nextId_self db "delivery_seq"
    have hca : counterVal
        ({ (nextId db "delivery_seq").2 with deliveries := (colSet
            db.deliveries (counterVal db "delivery_seq" + 1)
            (newDeliveryDoc db r)) } : DB) "assi_seq" =
        counterVal db "assi_seq" :=
      counterVal_nextId_ne db "delivery_seq" "assi_seq" (by decide)
    refine ⟨⟨?_, ?_, ?_, ?_, ?_, ?_, ?_, ?_, ?_⟩, ?_⟩
    · intro e he
      rcases mem_colSet _ _ _ _ he with rfl | he'
      · rfl
      · exact i1 e he'
    · intro e he
      rw [hcd]
      rcases mem_colSet _ _ _ _ he with rfl | he'
      · exact le_rfl
      · exact le_trans (i2 e he') (Nat.le_succ _)
    · intro e he
      rcases mem_colSet _ _ _ _ he with rfl | he'
      · exact Or.inl hndst
      · exact i3 e he'
    · exact i4
    · intro e he
      rw [hca]
      exact i5 e he
    · intro e he
      have hne : e.2.delivery_id ≠ counterVal db "delivery_seq" + 1 := by
        intro hcontra
        have h6 := i6 e he
        rw [hcontra] at h6
        unfold statusOf at h6
        rw [hnone] at h6
        cases h6
      show statusOf _ e.2.delivery_id = some e.2.status
      unfold statusOf
      show (colGet? (colSet db.deliveries (counterVal db "delivery_seq" + 1)
        (newDeliveryDoc db r)) e.2.delivery_id).map _ = _
      rw [colGet?_colSet_ne _ _ _ _ hne]
      exact i6 e he
    · exact i7
    · exact i8
    · exact i9
    · intro id
      by_cases hid : id = counterVal db "delivery_seq" + 1
      · subst hid
        have h1 : statusOf db (counterVal db "delivery_seq" + 1) = none := by
          unfold statusOf
          rw [hnone]
          rfl
        have h2 : statusOf
            ({ (nextId db "delivery_seq").2 with deliveries := (colSet
                db.deliveries (counterVal db "delivery_seq" + 1)
                (newDeliveryDoc db r)) } : DB)
            (counterVal db "delivery_seq" + 1) = some "waiting" := by
          unfold statusOf
          show (colGet? (colSet db.deliveries
            (counterVal db "delivery_seq" + 1) (newDeliveryDoc db r))
            (counterVal db "delivery_seq" + 1)).map _ = _
          rw [colGet?_colSet_self]
          simp [hndst]
        rw [h1, h2]
        rfl
      · have h2 : statusOf
            ({ (nextId db "delivery_seq").2 with deliveries := (colSet
                db.deliveries (counterVal db "delivery_seq" + 1)
                (newDeliveryDoc db r)) } : DB) id = statusOf db id := by
          unfold statusOf
          show (colGet? (colSet db.deliveries
            (counterVal db "delivery_seq" + 1) (newDeliveryDoc db r))
            id).map _ = _
          rw [colGet?_colSet_ne _ _ _ _ hid]
        rw [h2]
        exact forwardStep_refl _

/-- Accept preserves the invariant and only moves one delivery from
waiting to accept. -/
theorem inv_step_accept (db : DB) (r : AcceptReq) (hInv : Inv db) :
    Inv (acceptDelivery db r).2 ∧
    ∀ id, forwardStep (statusOf db id)
      (statusOf (acceptDelivery db r).2 id) = true := by
  rcases acceptDelivery_total db r with
    ⟨_, he⟩ | ⟨_, he⟩ | ⟨_, he⟩ | ⟨d, hd, _, he⟩ | ⟨d, hd, hw, he⟩
  · rw [he]; exact ⟨hInv, fun id => forwardStep_refl _⟩
  · rw [he]; exact ⟨hInv, fun id => forwardStep_refl _⟩
  · rw [he]
    exact Inv_of_sameDocs db (nextId db "assi_seq").2 rfl rfl
      (counterVal_nextId_le db "assi_seq" "delivery_seq")
      (counterVal_nextId_le db "assi_seq" "assi_seq") hInv
  · rw [he]
    exact Inv_of_sameDocs db (nextId db "assi_seq").2 rfl rfl
      (counterVal_nextId_le db "assi_seq" "delivery_seq")
      (counterVal_nextId_le db "assi_seq" "assi_seq") hInv
  · rw [he]
    obtain ⟨i1, i2, i3, i4, i5, i6, i7, i8, i9⟩ := hInv
    have hfreshA : ∀ e ∈ db.assignments,
        e.1 ≠ counterVal db "assi_seq" + 1 := by
      intro e he'
      rw [i4 e he']
      have := i5 e he'
      omega
    have hstDb : statusOf db r.delivery_id = some "waiting" := by
      unfold statusOf
      rw [hd]
      simp [hw]
    have hnoa : ∀ e ∈ db.assignments, e.2.delivery_id ≠ r.delivery_id := by
      intro e he' hcontra
      have h6 := i6 e he'
      rw [hcontra, hstDb] at h6
      have hws : e.2.status = "waiting" := (Option.some.inj h6).symm
      rcases i7 e he' with h | h | h <;> rw [hws] at h <;>
        exact absurd h (by decide)
    have hcd : counterVal (acceptSuccess db r) "delivery_seq" =
        counterVal db "delivery_seq" :=
      counterVal_nextId_ne db "assi_seq" "delivery_seq" (by decide)
    have hca : counterVal (acceptSuccess db r) "assi_seq" =
        counterVal db "assi_seq" + 1 :=
      counterVal_nextId_self db "assi_seq"
    have hstS : statusOf (acceptSuccess db r) r.delivery_id =
        some "accept" := by
      unfold statusOf acceptSuccess
      simp only
      rw [colGet?_colUpdate_self, hd]
      rfl
    have hstO : ∀ id, id ≠ r.delivery_id →
        statusOf (acceptSuccess db r) id = statusOf db id := by
      intro id hne
      unfold statusOf acceptSuccess
      simp only
      rw [colGet?_colUpdate_ne _ _ _ _ hne]
    refine ⟨⟨?_, ?_, ?_, ?_, ?_, ?_, ?_, ?_, ?_⟩, ?_⟩
    · intro e he'
      have hem : e ∈ colUpdate db.deliveries r.delivery_id
          (fun dd => { dd with status := "accept" }) := he'
      rcases mem_colUpdate _ _ _ _ hem with ⟨e', he2, hee⟩
      by_cases hk : e'.1 = r.delivery_id
      · rw [if_pos hk] at hee
        subst hee
        exact i1 e' he2
      · rw [if_neg hk] at hee
        subst hee
        exact i1 _ he2
    · intro e he'
      rw [hcd]
      have hem : e ∈ colUpdate db.deliveries r.delivery_id
          (fun dd => { dd with status := "accept" }) := he'
      rcases mem_colUpdate _ _ _ _ hem with ⟨e', he2, hee⟩
      by_cases hk : e'.1 = r.delivery_id
      · rw [if_pos hk] at hee
        subst hee
        exact i2 e' he2
      · rw [if_neg hk] at hee
        subst hee
        exact i2 _ he2
    · intro e he'
      have hem : e ∈ colUpdate db.deliveries r.delivery_id
          (fun dd => { dd with status := "accept" }) := he'
      rcases mem_colUpdate _ _ _ _ hem with ⟨e', he2, hee⟩
      by_cases hk : e'.1 = r.delivery_id
      · rw [if_pos hk] at hee
        subst hee
        exact Or.inr (Or.inl rfl)
      · rw [if_neg hk] at hee
        subst hee
        exact i3 _ he2
    · intro e he'
      have hem : e ∈ colSet db.assignments (counterVal db "assi_seq" + 1)
          (newAcceptAssign db r) := he'
      rcases mem_colSet _ _ _ _ hem with rfl | he2
      · rfl
      · exact i4 e he2
    · intro e he'
      rw [hca]
      have hem : e ∈ colSet db.assignments (counterVal db "assi_seq" + 1)
          (newAcceptAssign db r) := he'
      rcases mem_colSet _ _ _ _ hem with rfl | he2
      · exact le_rfl
      · exact le_trans (i5 e he2) (Nat.le_succ _)
    · intro e he'
      have hem : e ∈ colSet db.assignments (counterVal db "assi_seq" + 1)
          (newAcceptAssign db r) := he'
      rcases mem_colSet _ _ _ _ hem with rfl | he2
      · exact hstS
      · rw [hstO _ (hnoa e he2)]
        exact i6 e he2
    · intro e he'
      have hem : e ∈ colSet db.assignments (counterVal db "assi_seq" + 1)
          (newAcceptAssign db r) := he'
      rcases mem_colSet _ _ _ _ hem with rfl | he2
      · exact Or.inl rfl
      · exact i7 e he2
    · intro e he' e2 he2' hdd
      have hem1 : e ∈ colSet db.assignments (counterVal db "assi_seq" + 1)
          (newAcceptAssign db r) := he'
      have hem2 : e2 ∈ colSet db.assignments (counterVal db "assi_seq" + 1)
          (newAcceptAssign db r) := he2'
      rcases mem_colSet _ _ _ _ hem1 with rfl | hm1 <;>
        rcases mem_colSet _ _ _ _ hem2 with rfl | hm2
      · rfl
      · exact absurd hdd.symm (hnoa e2 hm2)
      · exact absurd hdd (hnoa e hm1)
      · exact i8 e hm1 e2 hm2 hdd
    · intro e he' e2 he2' hkk
      have hem1 : e ∈ colSet db.assignments (counterVal db "assi_seq" + 1)
          (newAcceptAssign db r) := he'
      have hem2 : e2 ∈ colSet db.assignments (counterVal db "assi_seq" + 1)
          (newAcceptAssign db r) := he2'
      rcases mem_colSet _ _ _ _ hem1 with rfl | hm1 <;>
        rcases mem_colSet _ _ _ _ hem2 with rfl | hm2
      · rfl
      · exact absurd hkk.symm (hfreshA e2 hm2)
      · exact absurd hkk (hfreshA e hm1)
      · exact i9 e hm1 e2 hm2 hkk
    · intro id
      by_cases hid : id = r.delivery_id
      · subst hid
        rw [hstDb, hstS]
        decide
      · rw [hstO id hid]
        exact forwardStep_refl _

/-- The head of a list, when present, is a member. -/
theorem head?_mem {l : List α} {a : α} (h : l.head? = some a) : a ∈ l := by
  cases l with
  | nil => cases h
  | cons x xs =>
      rw [List.head?_cons] at h
      cases h
      exact List.mem_cons_self _ _

/-- Mark-transporting (part_004) preserves the invariant and only
moves one delivery from accept to transporting. -/
theorem inv_step_transport (db : DB) (r : TransportReq) (hInv : Inv db) :
    Inv (updStatusAccept4 db r).2 ∧
    ∀ id, forwardStep (statusOf db id)
      (statusOf (updStatusAccept4 db r).2 id) = true := by
  rcases updStatusAccept4_total db r with
    ⟨_, he⟩ | ⟨_, he⟩ | ⟨_, he⟩ | ⟨_, he⟩ |
    ⟨ka, hka, _, he⟩ | ⟨ka, hka, hacc, ⟨d, hd⟩, he⟩
  · rw [he]; exact ⟨hInv, fun id => forwardStep_refl _⟩
  · rw [he]; exact ⟨hInv, fun id => forwardStep_refl _⟩
  · rw [he]; exact ⟨hInv, fun id => forwardStep_refl _⟩
  · rw [he]; exact ⟨hInv, fun id => forwardStep_refl _⟩
  · rw [he]; exact ⟨hInv, fun id => forwardStep_refl _⟩
  · rw [he]
    obtain ⟨i1, i2, i3, i4, i5, i6, i7, i8, i9⟩ := hInv
    have hmemq : ka ∈ assignQuery db.assignments r.delivery_id r.rider_id :=
      head?_mem hka
    have hmemf := List.mem_filter.mp hmemq
    have hkain : ka ∈ db.assignments := hmemf.1
    have hkad : ka.2.delivery_id = r.delivery_id := by
      have := hmemf.2
      simp only [Bool.and_eq_true, beq_iff_eq] at this
      exact this.1
    have hsync : statusOf db r.delivery_id = some "accept" := by
      have h6 := i6 ka hkain
      rw [hkad, hacc] at h6
      exact h6
    have hstS : statusOf (transportSuccess db r ka) r.delivery_id =
        some "transporting" := by
      unfold statusOf transportSuccess
      simp only
      rw [colGet?_colUpdate_self, hd]
      rfl
    have hstO : ∀ id, id ≠ r.delivery_id →
        statusOf (transportSuccess db r ka) id = statusOf db id := by
      intro id hne
      unfold statusOf transportSuccess
      simp only
      rw [colGet?_colUpdate_ne _ _ _ _ hne]
    have hkeyP : ∀ x : Nat × AssignmentDoc,
        ((if x.1 = ka.1 then (x.1, { x.2 with
            status := "transporting",
            picture_status2 := jsOrStr r.picture_status2
              ka.2.picture_status2 }) else x)).1 = x.1 := by
      intro x
      by_cases hx : x.1 = ka.1 <;> simp [hx]
    have hdelP : ∀ x : Nat × AssignmentDoc,
        ((if x.1 = ka.1 then (x.1, { x.2 with
            status := "transporting",
            picture_status2 := jsOrStr r.picture_status2
              ka.2.picture_status2 }) else x)).2.delivery_id =
          x.2.delivery_id := by
      intro x
      by_cases hx : x.1 = ka.1 <;> simp [hx]
    have hassiP : ∀ x : Nat × AssignmentDoc,
        ((if x.1 = ka.1 then (x.1, { x.2 with
            status := "transporting",
            picture_status2 := jsOrStr r.picture_status2
              ka.2.picture_status2 }) else x)).2.assi_id = x.2.assi_id := by
      intro x
      by_cases hx : x.1 = ka.1 <;> simp [hx]
    refine ⟨⟨?_, ?_, ?_, ?_, ?_, ?_, ?_, ?_, ?_⟩, ?_⟩
    · intro e he'
      have hem : e ∈ colUpdate db.deliveries r.delivery_id
          (fun dd => { dd with status := "transporting" }) := he'
      rcases mem_colUpdate _ _ _ _ hem with ⟨e', he2, hee⟩
      by_cases hk : e'.1 = r.delivery_id
      · rw [if_pos hk] at hee
        subst hee
        exact i1 e' he2
      · rw [if_neg hk] at hee
        subst hee
        exact i1 _ he2
    · intro e he'
      have hem : e ∈ colUpdate db.deliveries r.delivery_id
          (fun dd => { dd with status := "transporting" }) := he'
      rcases mem_colUpdate _ _ _ _ hem with ⟨e', he2, hee⟩
      by_cases hk : e'.1 = r.delivery_id
      · rw [if_pos hk] at hee
        subst hee
        exact i2 e' he2
      · rw [if_neg hk] at hee
        subst hee
        exact i2 _ he2
    · intro e he'
      have hem : e ∈ colUpdate db.deliveries r.delivery_id
          (fun dd => { dd with status := "transporting" }) := he'
      rcases mem_colUpdate _ _ _ _ hem with ⟨e', he2, hee⟩
      by_cases hk : e'.1 = r.delivery_id
      · rw [if_pos hk] at hee
        subst hee
        exact Or.inr (Or.inr (Or.inl rfl))
      · rw [if_neg hk] at hee
        subst hee
        exact i3 _ he2
    · intro e he'
      have hem : e ∈ colUpdate db.assignments ka.1
          (fun aa => { aa with
            status := "transporting",
            picture_status2 := jsOrStr r.picture_status2
              ka.2.picture_status2 }) := he'
      rcases mem_colUpdate _ _ _ _ hem with ⟨e', he2, hee⟩
      rw [hee, hkeyP e', hassiP e']
      exact i4 e' he2
    · intro e he'
      have hem : e ∈ colUpdate db.assignments ka.1
          (fun aa => { aa with
            status := "transporting",
            picture_status2 := jsOrStr r.picture_status2
              ka.2.picture_status2 }) := he'
      rcases mem_colUpdate _ _ _ _ hem with ⟨e', he2, hee⟩
      rw [hee, hassiP e']
      exact i5 e' he2
    · intro e he'
      have hem : e ∈ colUpdate db.assignments ka.1
          (fun aa => { aa with
            status := "transporting",
            picture_status2 := jsOrStr r.picture_status2
              ka.2.picture_status2 }) := he'
      rcases mem_colUpdate _ _ _ _ hem with ⟨e', he2, hee⟩
      by_cases hk : e'.1 = ka.1
      · have hka' : e' = ka := i9 e' he2 ka hkain hk
        rw [if_pos hk] at hee
        subst hee
        show statusOf (transportSuccess db r ka) e'.2.delivery_id =
          some "transporting"
        rw [hka', hkad]
        exact hstS
      · rw [if_neg hk] at hee
        have hne : e'.2.delivery_id ≠ r.delivery_id := by
          intro hcontra
          have heka : e' = ka := i8 e' he2 ka hkain (by rw [hcontra, hkad])
          exact hk (by rw [heka])
        rw [hee]
        show statusOf (transportSuccess db r ka) e'.2.delivery_id =
          some e'.2.status
        rw [hstO _ hne]
        exact i6 e' he2
    · intro e he'
      have hem : e ∈ colUpdate db.assignments ka.1
          (fun aa => { aa with
            status := "transporting",
            picture_status2 := jsOrStr r.picture_status2
              ka.2.picture_status2 }) := he'
      rcases mem_colUpdate _ _ _ _ hem with ⟨e', he2, hee⟩
      by_cases hk : e'.1 = ka.1
      · rw [if_pos hk] at hee
        subst hee
        exact Or.inr (Or.inl rfl)
      · rw [if_neg hk] at hee
        subst hee
        exact i7 _ he2
    · intro e he' e2 he2' hdd
      have hem1 : e ∈ colUpdate db.assignments ka.1
          (fun aa => { aa with
            status := "transporting",
            picture_status2 := jsOrStr r.picture_status2
              ka.2.picture_status2 }) := he'
      have hem2 : e2 ∈ colUpdate db.assignments ka.1
          (fun aa => { aa with
            status := "transporting",
            picture_status2 := jsOrStr r.picture_status2
              ka.2.picture_status2 }) := he2'
      rcases mem_colUpdate _ _ _ _ hem1 with ⟨e1', he1m, hee1⟩
      rcases mem_colUpdate _ _ _ _ hem2 with ⟨e2', he2m, hee2⟩
      rw [hee1, hee2, hdelP e1', hdelP e2'] at hdd
      have heq12 : e1' = e2' := i8 e1' he1m e2' he2m hdd
      rw [hee1, hee2, heq12]
    · intro e he' e2 he2' hkk
      have hem1 : e ∈ colUpdate db.assignments ka.1
          (fun aa => { aa with
            status := "transporting",
            picture_status2 := jsOrStr r.picture_status2
              ka.2.picture_status2 }) := he'
      have hem2 : e2 ∈ colUpdate db.assignments ka.1
          (fun aa => { aa with
            status := "transporting",
            picture_status2 := jsOrStr r.picture_status2
              ka.2.picture_status2 }) := he2'
      rcases mem_colUpdate _ _ _ _ hem1 with ⟨e1', he1m, hee1⟩
      rcases mem_colUpdate _ _ _ _ hem2 with ⟨e2', he2m, hee2⟩
      rw [hee1, hee2, hkeyP e1', hkeyP e2'] at hkk
      have heq12 : e1' = e2' := i9 e1' he1m e2' he2m hkk
      rw [hee1, hee2, heq12]
    · intro id
      by_cases hid : id = r.delivery_id
      · subst hid
        rw [hsync, hstS]
        decide
      · rw [hstO id hid]
        exact forwardStep_refl _

/-- Mark-finish preserves the invariant and only moves one delivery
from transporting to finish. -/
theorem inv_step_finish (db : DB) (r : FinishReq) (hInv : Inv db) :
    Inv (finishDelivery db r).2 ∧
    ∀ id, forwardStep (statusOf db id)
      (statusOf (finishDelivery db r).2 id) = true := by
  rcases finishDelivery_total db r with
    ⟨_, he⟩ | ⟨_, he⟩ | ⟨_, _, he⟩ | ⟨ka, hka, _, he⟩ |
    ⟨ka, hka, _, _, he⟩ | ⟨ka, hka, hmis, ⟨d0, hd0⟩, he⟩
  · rw [he]; exact ⟨hInv, fun id => forwardStep_refl _⟩
  · rw [he]; exact ⟨hInv, fun id => forwardStep_refl _⟩
  · rw [he]; exact ⟨hInv, fun id => forwardStep_refl _⟩
  · rw [he]; exact ⟨hInv, fun id => forwardStep_refl _⟩
  · rw [he]; exact ⟨hInv, fun id => forwardStep_refl _⟩
  · rw [he]
    obtain ⟨i1, i2, i3, i4, i5, i6, i7, i8, i9⟩ := hInv
    have hkainq : ka ∈ finishQuery db.assignments r.delivery_id :=
      List.mem_of_find?_eq_some hka
    have hktr : ka.2.status = "transporting" := by
      have := List.find?_some hka
      simpa using this
    have hkain : ka ∈ db.assignments := (List.mem_filter.mp hkainq).1
    have hsync : statusOf db ka.2.delivery_id = some "transporting" := by
      have h6 := i6 ka hkain
      rw [hktr] at h6
      exact h6
    have hstS : statusOf (finishSuccess db r ka) ka.2.delivery_id =
        some "finish" := by
      unfold statusOf finishSuccess
      simp only
      rw [colGet?_colUpdate_self, hd0]
      rfl
    have hstO : ∀ id, id ≠ ka.2.delivery_id →
        statusOf (finishSuccess db r ka) id = statusOf db id := by
      intro id hne
      unfold statusOf finishSuccess
      simp only
      rw [colGet?_colUpdate_ne _ _ _ _ hne]
    have hkeyP : ∀ x : Nat × AssignmentDoc,
        ((if x.1 = ka.1 then (x.1, { x.2 with
            status := "finish",
            picture_status3 := match strOpt r.picture_status3 with
              | some s => some s
              | none => x.2.picture_status3 }) else x)).1 = x.1 := by
      intro x
      by_cases hx : x.1 = ka.1 <;> simp [hx]
    have hdelP : ∀ x : Nat × AssignmentDoc,
        ((if x.1 = ka.1 then (x.1, { x.2 with
            status := "finish",
            picture_status3 := match strOpt r.picture_status3 with
              | some s => some s
              | none => x.2.picture_status3 }) else x)).2.delivery_id =
          x.2.delivery_id := by
      intro x
      by_cases hx : x.1 = ka.1 <;> simp [hx]
    have hassiP : ∀ x : Nat × AssignmentDoc,
        ((if x.1 = ka.1 then (x.1, { x.2 with
            status := "finish",
            picture_status3 := match strOpt r.picture_status3 with
              | some s => some s
              | none => x.2.picture_status3 }) else x)).2.assi_id =
          x.2.assi_id := by
      intro x
      by_cases hx : x.1 = ka.1 <;> simp [hx]
    refine ⟨⟨?_, ?_, ?_, ?_, ?_, ?_, ?_, ?_, ?_⟩, ?_⟩
    · intro e he'
      have hem : e ∈ colUpdate db.deliveries ka.2.delivery_id
          (fun dd => { dd with status := "finish" }) := he'
      rcases mem_colUpdate _ _ _ _ hem with ⟨e', he2, hee⟩
      by_cases hk : e'.1 = ka.2.delivery_id
      · rw [if_pos hk] at hee
        subst hee
        exact i1 e' he2
      · rw [if_neg hk] at hee
        subst hee
        exact i1 _ he2
    · intro e he'
      have hem : e ∈ colUpdate db.deliveries ka.2.delivery_id
          (fun dd => { dd with status := "finish" }) := he'
      rcases mem_colUpdate _ _ _ _ hem with ⟨e', he2, hee⟩
      by_cases hk : e'.1 = ka.2.delivery_id
      · rw [if_pos hk] at hee
        subst hee
        exact i2 e' he2
      · rw [if_neg hk] at hee
        subst hee
        exact i2 _ he2
    · intro e he'
      have hem : e ∈ colUpdate db.deliveries ka.2.delivery_id
          (fun dd => { dd with status := "finish" }) := he'
      rcases mem_colUpdate _ _ _ _ hem with ⟨e', he2, hee⟩
      by_cases hk : e'.1 = ka.2.delivery_id
      · rw [if_pos hk] at hee
        subst hee
        exact Or.inr (Or.inr (Or.inr rfl))
      · rw [if_neg hk] at hee
        subst hee
        exact i3 _ he2
    · intro e he'
      have hem : e ∈ colUpdate db.assignments ka.1
          (fun aa => { aa with
            status := "finish",
            picture_status3 := match strOpt r.picture_status3 with
              | some s => some s
              | none => aa.picture_status3 }) := he'
      rcases mem_colUpdate _ _ _ _ hem with ⟨e', he2, hee⟩
      rw [hee, hkeyP e', hassiP e']
      exact i4 e' he2
    · intro e he'
      have hem : e ∈ colUpdate db.assignments ka.1
          (fun aa => { aa with
            status := "finish",
            picture_status3 := match strOpt r.picture_status3 with
              | some s => some s
              | none => aa.picture_status3 }) := he'
      rcases mem_colUpdate _ _ _ _ hem with ⟨e', he2, hee⟩
      rw [hee, hassiP e']
      exact i5 e' he2
    · intro e he'
      have hem : e ∈ colUpdate db.assignments ka.1
          (fun aa => { aa with
            status := "finish",
            picture_status3 := match strOpt r.picture_status3 with
              | some s => some s
              | none => aa.picture_status3 }) := he'
      rcases mem_colUpdate _ _ _ _ hem with ⟨e', he2, hee⟩
      by_cases hk : e'.1 = ka.1
      · have hka' : e' = ka := i9 e' he2 ka hkain hk
        rw [if_pos hk] at hee
        subst hee
        show statusOf (finishSuccess db r ka) e'.2.delivery_id =
          some "finish"
        rw [hka']
        exact hstS
      · rw [if_neg hk] at hee
        have hne : e'.2.delivery_id ≠ ka.2.delivery_id := by
          intro hcontra
          have heka : e' = ka := i8 e' he2 ka hkain hcontra
          exact hk (by rw [heka])
        rw [hee]
        show statusOf (finishSuccess db r ka) e'.2.delivery_id =
          some e'.2.status
        rw [hstO _ hne]
        exact i6 e' he2
    · intro e he'
      have hem : e ∈ colUpdate db.assignments ka.1
          (fun aa => { aa with
            status := "finish",
            picture_status3 := match strOpt r.picture_status3 with
              | some s => some s
              | none => aa.picture_status3 }) := he'
      rcases mem_colUpdate _ _ _ _ hem with ⟨e', he2, hee⟩
      by_cases hk : e'.1 = ka.1
      · rw [if_pos hk] at hee
        subst hee
        exact Or.inr (Or.inr rfl)
      · rw [if_neg hk] at hee
        subst hee
        exact i7 _ he2
    · intro e he' e2 he2' hdd
      have hem1 : e ∈ colUpdate db.assignments ka.1
          (fun aa => { aa with
            status := "finish",
            picture_status3 := match strOpt r.picture_status3 with
              | some s => some s
              | none => aa.picture_status3 }) := he'
      have hem2 : e2 ∈ colUpdate db.assignments ka.1
          (fun aa => { aa with
            status := "finish",
            picture_status3 := match strOpt r.picture_status3 with
              | some s => some s
              | none => aa.picture_status3 }) := he2'
      rcases mem_colUpdate _ _ _ _ hem1 with ⟨e1', he1m, hee1⟩
      rcases mem_colUpdate _ _ _ _ hem2 with ⟨e2', he2m, hee2⟩
      rw [hee1, hee2, hdelP e1', hdelP e2'] at hdd
      have heq12 : e1' = e2' := i8 e1' he1m e2' he2m hdd
      rw [hee1, hee2, heq12]
    · intro e he' e2 he2' hkk
      have hem1 : e ∈ colUpdate db.assignments ka.1
          (fun aa => { aa with
            status := "finish",
            picture_status3 := match strOpt r.picture_status3 with
              | some s => some s
              | none => aa.picture_status3 }) := he'
      have hem2 : e2 ∈ colUpdate db.assignments ka.1
          (fun aa => { aa with
            status := "finish",
            picture_status3 := match strOpt r.picture_status3 with
              | some s => some s
              | none => aa.picture_status3 }) := he2'
      rcases mem_colUpdate _ _ _ _ hem1 with ⟨e1', he1m, hee1⟩
      rcases mem_colUpdate _ _ _ _ hem2 with ⟨e2', he2m, hee2⟩
      rw [hee1, hee2, hkeyP e1', hkeyP e2'] at hkk
      have heq12 : e1' = e2' := i9 e1' he1m e2' he2m hkk
      rw [hee1, hee2, heq12]
    · intro id
      by_cases hid : id = ka.2.delivery_id
      · subst hid
        rw [hsync, hstS]
        decide
      · rw [hstO id hid]
        exact forwardStep_refl _

/-- C4 amended: under the invariant, every lifecycle operation that
does not smuggle in a caller-chosen creation status keeps the
invariant and moves every observed Delivery status at most one step
forward on the chain waiting, accept, transporting, finish (new
deliveries appear at waiting, nothing moves backward or skips); the
counterexample shows both exceptions - creation with an explicit
status, and the server.js update-status-accept variant - are real. -/
theorem delivery_status_monotone (db : DB) (op : Op)
    (hInv : Inv db) (hop : noStatusOverride op = true) :
    Inv (step db op) ∧
    ∀ id, forwardStep (statusOf db id) (statusOf (step db op) id) = true := by
  cases op with
  | create r =>
      have hst : strOpt r.status = none := by
        simpa [noStatusOverride, Option.isNone_iff_eq_none] using hop
      exact inv_step_create db r hInv hst
  | accept r => exact inv_step_accept db r hInv
  | transport r => exact inv_step_transport db r hInv
  | finish r => exact inv_step_finish db r hInv

/-- A reachable-shaped store for the monotonicity witness: one waiting
delivery, its counter at 1, no assignments. -/
def c4db : DB := { waitingDB with counters := [("delivery_seq", 1)] }

/-- Witness for C4 amended: accepting the waiting delivery in a
concrete invariant store keeps the invariant and steps delivery 1
forward. -/
theorem delivery_status_monotone_witness :
    Inv (step c4db (Op.accept acceptReq3)) ∧
    forwardStep (statusOf c4db 1)
      (statusOf (step c4db (Op.accept acceptReq3)) 1) = true :=
  ⟨(delivery_status_monotone c4db (Op.accept acceptReq3)
      (by decide) rfl).1,
   (delivery_status_monotone c4db (Op.accept acceptReq3)
      (by decide) rfl).2 1⟩

end DeliveryApi
